import Mathlib

/-!
# Topaz service composition (`pkg/app/topaz.go`)

A shallow embedding of the service composition and startup code of
`pkg/app/topaz.go`, with the properties of the grouping, dependency, composer
and validation logic stated and proved over it.

Conventions of the embedding:

* a Go `map[string]V` is the list of its entries in iteration order
  (`GoMap V`); the keys of a map that comes from outside are assumed pairwise
  distinct where that matters (`GoMap.keys m` has no duplicates);
* a `*builder.API` is a pointer (`Ptr`) into a heap (`Heap`) of API records, so
  that the writes `mapToGRPCPorts` makes through the pointers are visible;
* a Go `error` result is an `Option`: `none` is `nil`;
* Go functions that act on a server or a multiplexer are state-passing
  functions.
-/

namespace Topaz

/-! ## Go maps -/

/-- A Go `map[string]V`: its entries, in iteration order. -/
abbrev GoMap (β : Type) := List (String × β)

namespace GoMap

/-- The comma-ok read `v, ok := m[k]`. -/
def lookup {β : Type} : GoMap β → String → Option β
  | [], _ => none
  | (k', v) :: rest, k => if k' = k then some v else lookup rest k

/-- The assignment `m[k] = v`: replaces the entry of `k`, or adds one. -/
def set {β : Type} : GoMap β → String → β → GoMap β
  | [], k, v => [(k, v)]
  | (k', v') :: rest, k, v => if k' = k then (k, v) :: rest else (k', v') :: set rest k v

/-- The keys of the map, in iteration order. -/
def keys {β : Type} (m : GoMap β) : List String := m.map Prod.fst

/-- The plain read `m[k]` of a map of slices: the nil slice when `k` is absent. -/
def getSlice {α : Type} (m : GoMap (List α)) (k : String) : List α :=
  match lookup m k with
  | some v => v
  | none => []

end GoMap

/-! ## `contains` -/

/-- The generic `contains` of the source: a linear scan for `item`. -/
def contains {α : Type} [DecidableEq α] : List α → α → Bool
  | [], _ => false
  | x :: rest, item => if x = item then true else contains rest item

/-! ## Configuration records -/

/-- A `time.Duration`: a count of nanoseconds. -/
abbrev Duration := Int

/-- The constant `time.Second`. -/
def Second : Duration := 1000000000

/-- Modelled from the spec: the GRPC part of `builder.API` (declared in the
service-host library, not in this source tree); only the listen address is read
by the code. -/
structure GRPCConfig where
  ListenAddress : String
  deriving DecidableEq, Repr

/-- Modelled from the spec: the gateway part of `builder.API` (declared in the
service-host library, not in this source tree); the four transport timeouts. -/
structure GatewayConfig where
  ReadTimeout : Duration
  ReadHeaderTimeout : Duration
  WriteTimeout : Duration
  IdleTimeout : Duration
  deriving DecidableEq, Repr

/-- Modelled from the spec: the `builder.API` record of a service definition
(declared in the service-host library, not in this source tree), with the
fields the code reads and writes: `Needs`, `GRPC` and `Gateway`. -/
structure API where
  Needs : List String
  GRPC : GRPCConfig
  Gateway : GatewayConfig
  deriving DecidableEq, Repr

/-- A `*builder.API`. -/
abbrev Ptr := Nat

/-- The API records the pointers of the configuration refer to. -/
abbrev Heap := Ptr → API

/-- The write `*p = a`. -/
def Heap.update (h : Heap) (p : Ptr) (a : API) : Heap :=
  fun q => if q = p then a else h q

/-- Modelled from the spec: the part of `config.Config` the code reads
(declared in pkg/cc/config, not in this source tree): `APIConfig.Services`,
`DirectoryResolver.Address`, and the listen addresses of the health and metrics
servers and the path `Edge.DBPath`, empty when not configured. -/
structure Config where
  Services : GoMap Ptr
  DirectoryResolverAddress : String
  HealthListenAddress : String := ""
  MetricsListenAddress : String := ""
  EdgeDBPath : String := ""

/-! ## Registered services -/

/-- The interface `ServiceTypes`: `G` is `builder.GRPCRegistrations`, `H` is
`builder.HandlerRegistrations` and `C` is `func()`. -/
structure ServiceTypes (G H C : Type) where
  AvailableServices : List String
  GetGRPCRegistrations : List String → G
  GetGatewayRegistration : List String → H
  Cleanups : List C

/-- A `builder.GRPCRegistrations`, `func(server *grpc.Server)`: it acts on the
server it is given. -/
abbrev GRPCRegistrations (σ : Type) := σ → σ

/-- A `builder.HandlerRegistrations`,
`func(ctx, mux, grpcEndpoint, opts) error`: `ρ` stands for the arguments passed
on unchanged (`ctx`, `grpcEndpoint`, `opts`), `μ` for the multiplexer it acts
on, `ε` for the errors. -/
abbrev HandlerRegistrations (ρ μ ε : Type) := ρ → μ → μ × Option ε

/-! ## `mapToGRPCPorts` -/

/-- The struct `services`: the names bound to one listen address and the
pointer to the API record of the group. -/
structure services where
  registeredServices : List String
  API : Ptr
  deriving DecidableEq, Repr

/-- The four `if` statements of `mapToGRPCPorts` under
`// set default gateway timeouts`, in order, on the record `serv.API` points
to. -/
def setDefaultGatewayTimeouts (a : API) : API :=
  let a1 : API :=
    if a.Gateway.ReadTimeout = 0 then
      { a with Gateway := { a.Gateway with ReadTimeout := 2 * Second } }
    else a
  let a2 : API :=
    if a1.Gateway.ReadHeaderTimeout = 0 then
      { a1 with Gateway := { a1.Gateway with ReadHeaderTimeout := 2 * Second } }
    else a1
  let a3 : API :=
    if a2.Gateway.WriteTimeout = 0 then
      { a2 with Gateway := { a2.Gateway with WriteTimeout := 2 * Second } }
    else a2
  if a3.Gateway.IdleTimeout = 0 then
    { a3 with Gateway := { a3.Gateway with WriteTimeout := 30 * Second } }
  else a3

/-- The state of the loop of `mapToGRPCPorts`: the port map built so far and
the heap of API records. -/
structure PortState where
  portMap : GoMap services
  heap : Heap

/-- One iteration of the loop of `mapToGRPCPorts`, for the entry
`key, config`. -/
def mapToGRPCPortsStep (st : PortState) (entry : String × Ptr) : PortState :=
  let key := entry.1
  let config := entry.2
  let address := (st.heap config).GRPC.ListenAddress
  let serv : services :=
    match GoMap.lookup st.portMap address with
    | some existing =>
      { existing with registeredServices := existing.registeredServices ++ [key] }
    | none => { registeredServices := [key], API := config }
  let heap1 := st.heap.update serv.API (setDefaultGatewayTimeouts (st.heap serv.API))
  { portMap := GoMap.set st.portMap address serv, heap := heap1 }

/-- The function `mapToGRPCPorts`: the port map it returns, with the heap as it
leaves it. -/
def mapToGRPCPorts (api : GoMap Ptr) (heap : Heap) : PortState :=
  api.foldl mapToGRPCPortsStep { portMap := [], heap := heap }

/-- The effective transport config of a group: the record its `API` points to,
read after `mapToGRPCPorts` has returned. -/
def PortState.effective (st : PortState) (g : services) : API := st.heap g.API

/-! ## The dependency loop of `Start` -/

/-- One iteration of the inner loop of the dependency loop of `Start`, for the
name `name` in the `Needs` of the service definition `cfg`: the edge to the
listen address of the needed service is appended unless it is there or the two
addresses are the same; a name that is not configured changes nothing. -/
def StartNeedsStep (Services : GoMap Ptr) (heap : Heap) (cfg : Ptr)
    (DependencyMap : GoMap (List String)) (name : String) : GoMap (List String) :=
  match GoMap.lookup Services name with
  | some dependencyConfig =>
    if (!contains (GoMap.getSlice DependencyMap (heap cfg).GRPC.ListenAddress)
          (heap dependencyConfig).GRPC.ListenAddress) &&
        decide ((heap cfg).GRPC.ListenAddress ≠ (heap dependencyConfig).GRPC.ListenAddress) then
      GoMap.set DependencyMap (heap cfg).GRPC.ListenAddress
        (GoMap.getSlice DependencyMap (heap cfg).GRPC.ListenAddress ++
          [(heap dependencyConfig).GRPC.ListenAddress])
    else DependencyMap
  | none => DependencyMap

/-- The inner loop of the dependency loop of `Start`: `for _, name := range
cfg.Needs`, for the service definition `cfg`, acting on `Manager.DependencyMap`. -/
def StartNeedsLoop (Services : GoMap Ptr) (heap : Heap) (cfg : Ptr)
    (DependencyMap : GoMap (List String)) (needs : List String) : GoMap (List String) :=
  needs.foldl (StartNeedsStep Services heap cfg) DependencyMap

/-- One iteration of the outer loop of `Start`, for the service definition
`cfg`: the inner loop runs when `len(cfg.Needs) > 0`. -/
def StartDependencyStep (Services : GoMap Ptr) (heap : Heap)
    (DependencyMap : GoMap (List String)) (entry : String × Ptr) : GoMap (List String) :=
  if 0 < ((heap entry.2).Needs).length then
    StartNeedsLoop Services heap entry.2 DependencyMap (heap entry.2).Needs
  else DependencyMap

/-- The dependency loop of `Start` (`// build dependencies map.`): the
`Manager.DependencyMap` it leaves, from the one it finds. The entries iterated
over are `rest`; the lookups by name are made in the whole map `Services`. -/
def StartDependencyLoopFrom (Services : GoMap Ptr) (heap : Heap)
    (rest : GoMap Ptr) (DependencyMap : GoMap (List String)) : GoMap (List String) :=
  rest.foldl (StartDependencyStep Services heap) DependencyMap

/-- The dependency loop of `Start` over the whole configuration. -/
def StartDependencyLoop (Services : GoMap Ptr) (heap : Heap)
    (DependencyMap : GoMap (List String)) : GoMap (List String) :=
  StartDependencyLoopFrom Services heap Services DependencyMap

/-! ## The composer loop of `ConfigServices` -/

/-- The three slices the composer loop of `ConfigServices` fills for one
endpoint group: `grpcs`, `gateways` and `cleanups`. -/
structure Collected (G H C : Type) where
  grpcs : List G
  gateways : List H
  cleanups : List C

/-- The slices before the loop: all nil. -/
def Collected.empty {G H C : Type} : Collected G H C :=
  { grpcs := [], gateways := [], cleanups := [] }

/-- The inner loop of the composer, `for _, serviceName := range
serv.AvailableServices()`, with the flag `notAdded` as part of the state. -/
def composerNamesLoop {G H C : Type} (registeredServices : List String)
    (serv : ServiceTypes G H C) (available : List String)
    (st : Collected G H C × Bool) : Collected G H C × Bool :=
  available.foldl
    (fun s serviceName =>
      if contains registeredServices serviceName && s.2 then
        ({ grpcs := s.1.grpcs ++ [serv.GetGRPCRegistrations registeredServices],
           gateways := s.1.gateways ++ [serv.GetGatewayRegistration registeredServices],
           cleanups := s.1.cleanups ++ serv.Cleanups }, false)
      else s)
    st

/-- One iteration of the outer loop of the composer, for the registered
service `serv`: `notAdded` starts as `true`. -/
def composerStep {G H C : Type} (registeredServices : List String)
    (acc : Collected G H C) (entry : String × ServiceTypes G H C) : Collected G H C :=
  (composerNamesLoop registeredServices entry.2 entry.2.AvailableServices (acc, true)).1

/-- The composer loop of `ConfigServices`, `for _, serv := range e.Services`,
continued from the slices `acc`. -/
def composerLoopFrom {G H C : Type} (registeredServices : List String)
    (acc : Collected G H C) (Services : GoMap (ServiceTypes G H C)) : Collected G H C :=
  Services.foldl (composerStep registeredServices) acc

/-- The composer loop of `ConfigServices` for the group with the name list
`registeredServices`, over the registry `e.Services`. -/
def composerLoop {G H C : Type} (registeredServices : List String)
    (Services : GoMap (ServiceTypes G H C)) : Collected G H C :=
  composerLoopFrom registeredServices Collected.empty Services

/-- The first closure handed to `CreateService`:
`func(server) { for _, f := range grpcs { f(server) } }`. -/
def composedGRPC {σ : Type} (grpcs : List (GRPCRegistrations σ)) (server : σ) : σ :=
  grpcs.foldl (fun s f => f s) server

/-- The second closure handed to `CreateService`: it calls the gateway
registrations in order and returns the first error. -/
def composedGateway {ρ μ ε : Type} :
    List (HandlerRegistrations ρ μ ε) → ρ → μ → μ × Option ε
  | [], _, mux => (mux, none)
  | f :: rest, args, mux =>
    match f args mux with
    | (mux1, some err) => (mux1, some err)
    | (mux1, none) => composedGateway rest args mux1

/-! ## `validateConfig` -/

/-- The errors `validateConfig` returns. -/
inductive ValidationError where
  | readerAddressMismatch
  | consoleNeedsModel
  | unknownServiceType (key : String)
  deriving DecidableEq, Repr

/-- The message of each error (`Error()`), as written in the source. -/
def ValidationError.Error : ValidationError → String
  | .readerAddressMismatch =>
    "remote directory resolver address is different from reader grpc address"
  | .consoleNeedsModel => "console needs the model service to be configured"
  | .unknownServiceType key => "unknown service type " ++ key

/-- The inner loop of the last check of `validateConfig`: the value of
`validKey` after `for _, service := range e.Services`, which breaks at the
first service that advertises `key`. -/
def validKey {G H C : Type} : GoMap (ServiceTypes G H C) → String → Bool
  | [], _ => false
  | (_, service) :: rest, key =>
    if contains service.AvailableServices key then true else validKey rest key

/-- The outer loop of the last check of `validateConfig`,
`for key := range e.Configuration.APIConfig.Services`: it returns at the first
key that is not valid. -/
def validateKeys {G H C : Type} (Services : GoMap (ServiceTypes G H C)) :
    GoMap Ptr → Option ValidationError
  | [] => none
  | (key, _) :: rest =>
    if !validKey Services key then some (.unknownServiceType key)
    else validateKeys Services rest

/-- The reader check of `validateConfig`. -/
def validateReader (cfg : Config) (heap : Heap) : Option ValidationError :=
  match GoMap.lookup cfg.Services "reader" with
  | some readerConfig =>
    if (heap readerConfig).GRPC.ListenAddress ≠ cfg.DirectoryResolverAddress then
      some .readerAddressMismatch
    else none
  | none => none

/-- The console check of `validateConfig`. -/
def validateConsole (cfg : Config) : Option ValidationError :=
  match GoMap.lookup cfg.Services "console" with
  | some _ =>
    match GoMap.lookup cfg.Services "model" with
    | none => some .consoleNeedsModel
    | some _ => none
  | none => none

/-- The method `validateConfig`: the three checks in order, each returning its
error at once. The log line for a missing model service has no effect on the
result. -/
def validateConfig {G H C : Type} (cfg : Config) (heap : Heap)
    (Services : GoMap (ServiceTypes G H C)) : Option ValidationError :=
  match validateReader cfg heap with
  | some err => some err
  | none =>
    match validateConsole cfg with
    | some err => some err
    | none => validateKeys Services cfg.Services

/-! ## `GetDecisionLogger` -/

/-- A value of type `interface{}` held in the map `DecisionLogConfig.Config`: a
Go `int`, a string, or a value of another type, kept by the text that `%v`
prints for it. -/
inductive ConfigValue where
  | int (n : Int)
  | string (s : String)
  | other (text : String)
  deriving DecidableEq, Repr

/-- Modelled from the spec: the record `config.DecisionLogConfig` (declared in
pkg/cc/config, not in this source tree): the discriminator `Type`, here
`Type_`, and the map `Config`. -/
structure DecisionLogConfig where
  Type_ : String
  Config : GoMap ConfigValue

/-- Modelled from the spec: the record `file.Config` handed to the file
backend (declared in decision_log/logger/file, not in this source tree). -/
structure FileConfig where
  LogFilePath : String
  MaxFileSizeMB : Int
  MaxFileCount : Int
  deriving DecidableEq, Repr

/-- The type assertion `v, _ := x.(int)` on the result of a map read: the
`int` held, and 0 for an absent key or a value of another type. -/
def assertInt : Option ConfigValue → Int
  | some (.int n) => n
  | _ => 0

/-- The call `fmt.Sprintf("%v", x)` on the result of a map read: a string
prints as itself, an `int` in decimal, the absent value as `<nil>`. -/
def sprintV : Option ConfigValue → String
  | none => "<nil>"
  | some (.string s) => s
  | some (.int n) => toString n
  | some (.other text) => text

/-- The three backend constructors `self.New`, `file.New` and `nop.New`, taken
as parameters: each acts on the world `ω` and returns a logger and an error, as
a Go pair. -/
structure LoggerBackends (ω ε L : Type) where
  selfNew : GoMap ConfigValue → ω → ω × (Option L × Option ε)
  fileNew : FileConfig → ω → ω × (Option L × Option ε)
  nopNew : ω → ω × (Option L × Option ε)

/-- The method `GetDecisionLogger`: the `switch` on `cfg.Type`, each case
calling its constructor and returning `nil, err` when the constructor fails. -/
def GetDecisionLogger {ω ε L : Type} (b : LoggerBackends ω ε L) (cfg : DecisionLogConfig)
    (w : ω) : ω × (Option L × Option ε) :=
  if cfg.Type_ = "self" then
    match b.selfNew cfg.Config w with
    | (w1, (_, some err)) => (w1, (none, some err))
    | (w1, (decisionlogger, none)) => (w1, (decisionlogger, none))
  else if cfg.Type_ = "file" then
    let logpath := GoMap.lookup cfg.Config "log_file_path"
    let maxsize := assertInt (GoMap.lookup cfg.Config "max_file_size_mb")
    let maxfiles := assertInt (GoMap.lookup cfg.Config "max_file_count")
    match b.fileNew { LogFilePath := sprintV logpath, MaxFileSizeMB := maxsize,
                      MaxFileCount := maxfiles } w with
    | (w1, (_, some err)) => (w1, (none, some err))
    | (w1, (decisionlogger, none)) => (w1, (decisionlogger, none))
  else
    match b.nopNew w with
    | (w1, (_, some err)) => (w1, (none, some err))
    | (w1, (decisionlogger, none)) => (w1, (decisionlogger, none))

/-! ## `Start` -/

/-- The enumeration `grpc_health_v1.HealthCheckResponse_ServingStatus`. -/
inductive ServingStatus where
  | UNKNOWN
  | SERVING
  | NOT_SERVING
  | SERVICE_UNKNOWN
  deriving DecidableEq, Repr

/-- Modelled from the spec: the health server of the lifecycle manager
(declared in the service-host library, not in this source tree), as the map
from service name to health status that its setter writes. -/
abbrev HealthServer := GoMap ServingStatus

/-- Modelled from the spec: the health-status setter keyed by service name,
`HealthServer.SetServiceStatus` (declared in the service-host library): it
records the status under the name. -/
def HealthServer.SetServiceStatus (hs : HealthServer) (serviceName : String)
    (status : ServingStatus) : HealthServer :=
  GoMap.set hs serviceName status

/-- Modelled from the spec: the part of `builder.ServiceManager` the code
reads and writes (declared in the service-host library): the dependency map
and the health server, which is nil (`none`) when not set up. -/
structure Manager where
  DependencyMap : GoMap (List String)
  HealthServer : Option HealthServer

/-- The error `errors.Wrap(err, message)`. -/
structure WrappedError (ε : Type) where
  message : String
  cause : ε
  deriving DecidableEq, Repr

/-- The loop `for serviceName := range e.Configuration.APIConfig.Services` of
`Start`, which sets every configured name to `SERVING`. -/
def StartHealthLoop (Services : GoMap Ptr) (hs : HealthServer) : HealthServer :=
  Services.foldl (fun h entry => HealthServer.SetServiceStatus h entry.1 ServingStatus.SERVING) hs

/-- The method `Start`: the dependency loop, then `Manager.StartServers`
(taken as a parameter: it acts on the manager and returns an error), then the
health statuses. It returns the manager as left and the error. -/
def Start {ε : Type} (StartServers : Manager → Manager × Option ε)
    (Services : GoMap Ptr) (heap : Heap) (m : Manager) :
    Manager × Option (WrappedError ε) :=
  let m1 : Manager :=
    { m with DependencyMap := StartDependencyLoop Services heap m.DependencyMap }
  match StartServers m1 with
  | (m2, some err) =>
    (m2, some { message := "failed to start engine server", cause := err })
  | (m2, none) =>
    match m2.HealthServer with
    | some hs => ({ m2 with HealthServer := some (StartHealthLoop Services hs) }, none)
    | none => (m2, none)

/-! ## `ConfigServices` -/

/-- Modelled from the spec: the constant `authorizerService` (declared
elsewhere in the package, not in this source tree): the name of the authorizer
capability. -/
def authorizerService : String := "authorizer"

/-- Modelled from the spec: the constant `consoleService` (declared elsewhere
in the package, not in this source tree): the name of the console
capability. -/
def consoleService : String := "console"

/-- The calls `ConfigServices` makes to code outside this file, taken as
parameters, each by its outcome: an error or nil, and for the constructors of
registered services the service built. -/
structure Collaborators (ε G H C : Type) where
  SetupHealthServer : Option ε
  SetupMetricsServer : Option ε
  edsNew : Option ε
  NewEdgeDir : Except ε (ServiceTypes G H C)
  NewAuthorizer : Ptr → Except ε (ServiceTypes G H C)
  NewConsole : ServiceTypes G H C
  GetMiddlewaresForService : String → Option ε
  CreateService : services → Collected G H C → Option ε
  AddGRPCServer : String → Option ε

/-- The steps of `ConfigServices`, as recorded in the order they are taken. -/
inductive Event where
  | setupHealthAndMetrics
  | prepareServices
  | validateConfig
  | mapToGRPCPorts
  | GetMiddlewaresForService (address : String)
  | CreateService (address : String) (registeredServices : List String)
  | mountConsole (address : String)
  | AddGRPCServer (address : String)
  deriving DecidableEq, Repr

/-- The errors `ConfigServices` returns: those of `validateConfig` and those of
the calls to code outside this file. -/
inductive ConfigServicesError (ε : Type) where
  | validation (err : ValidationError)
  | external (err : ε)
  deriving DecidableEq, Repr

/-- The method `setupHealthAndMetrics`, by its error. -/
def setupHealthAndMetrics {ε G H C : Type} (c : Collaborators ε G H C) (cfg : Config) :
    Option ε :=
  match (if cfg.HealthListenAddress ≠ "" then c.SetupHealthServer else none) with
  | some err => some err
  | none => if cfg.MetricsListenAddress ≠ "" then c.SetupMetricsServer else none

/-- The method `prepareServices`: the registry `e.Services` as it leaves it,
and its error. -/
def prepareServices {ε G H C : Type} (c : Collaborators ε G H C) (cfg : Config)
    (Services : GoMap (ServiceTypes G H C)) : GoMap (ServiceTypes G H C) × Option ε :=
  let edge : GoMap (ServiceTypes G H C) × Option ε :=
    if cfg.EdgeDBPath ≠ "" then
      match c.edsNew with
      | some err => (Services, some err)
      | none =>
        match c.NewEdgeDir with
        | .error err => (Services, some err)
        | .ok edgeDir => (GoMap.set Services "edge" edgeDir, none)
    else (Services, none)
  match edge with
  | (Services1, some err) => (Services1, some err)
  | (Services1, none) =>
    let authorizer : GoMap (ServiceTypes G H C) × Option ε :=
      match GoMap.lookup cfg.Services authorizerService with
      | some serviceConfig =>
        match c.NewAuthorizer serviceConfig with
        | .error err => (Services1, some err)
        | .ok a => (GoMap.set Services1 "authorizer" a, none)
      | none => (Services1, none)
    match authorizer with
    | (Services2, some err) => (Services2, some err)
    | (Services2, none) =>
      match GoMap.lookup cfg.Services consoleService with
      | some _ => (GoMap.set Services2 "console" c.NewConsole, none)
      | none => (Services2, none)

/-- The loop `for address, config := range serviceMap` of `ConfigServices`: the
steps taken and the error. -/
def ConfigServicesGroups {ε G H C : Type} (c : Collaborators ε G H C)
    (Services : GoMap (ServiceTypes G H C)) : GoMap services → List Event × Option ε
  | [] => ([], none)
  | (address, serviceConfig) :: rest =>
    match c.GetMiddlewaresForService address with
    | some err => ([Event.GetMiddlewaresForService address], some err)
    | none =>
      match c.CreateService serviceConfig
          (composerLoop serviceConfig.registeredServices Services) with
      | some err =>
        ([Event.GetMiddlewaresForService address,
          Event.CreateService address serviceConfig.registeredServices], some err)
      | none =>
        let console : List Event :=
          if contains serviceConfig.registeredServices "console" then
            [Event.mountConsole address]
          else []
        match c.AddGRPCServer address with
        | some err =>
          ([Event.GetMiddlewaresForService address,
            Event.CreateService address serviceConfig.registeredServices] ++ console ++
            [Event.AddGRPCServer address], some err)
        | none =>
          ([Event.GetMiddlewaresForService address,
            Event.CreateService address serviceConfig.registeredServices] ++ console ++
            [Event.AddGRPCServer address] ++ (ConfigServicesGroups c Services rest).1,
           (ConfigServicesGroups c Services rest).2)

/-- The method `ConfigServices`: the steps it takes, in order, and the error
it returns. -/
def ConfigServices {ε G H C : Type} (c : Collaborators ε G H C) (cfg : Config) (heap : Heap)
    (Services : GoMap (ServiceTypes G H C)) :
    List Event × Option (ConfigServicesError ε) :=
  match setupHealthAndMetrics c cfg with
  | some err => ([Event.setupHealthAndMetrics], some (ConfigServicesError.external err))
  | none =>
    match prepareServices c cfg Services with
    | (_, some err) =>
      ([Event.setupHealthAndMetrics, Event.prepareServices],
       some (ConfigServicesError.external err))
    | (Services1, none) =>
      match validateConfig cfg heap Services1 with
      | some err =>
        ([Event.setupHealthAndMetrics, Event.prepareServices, Event.validateConfig],
         some (ConfigServicesError.validation err))
      | none =>
        ([Event.setupHealthAndMetrics, Event.prepareServices, Event.validateConfig,
          Event.mapToGRPCPorts] ++
          (ConfigServicesGroups c Services1 (mapToGRPCPorts cfg.Services heap).portMap).1,
         (ConfigServicesGroups c Services1
            (mapToGRPCPorts cfg.Services heap).portMap).2.map ConfigServicesError.external)

/-! ## Vocabulary of the statements -/

/-- Two collections of registrations, one after the other. -/
def Collected.append {G H C : Type} (a b : Collected G H C) : Collected G H C :=
  { grpcs := a.grpcs ++ b.grpcs, gateways := a.gateways ++ b.gateways,
    cleanups := a.cleanups ++ b.cleanups }

/-- What one registered service hands over for a group when it is collected:
its GRPC registration, its gateway registration and its cleanups, once. -/
def contribution {G H C : Type} (registeredServices : List String)
    (serv : ServiceTypes G H C) : Collected G H C :=
  { grpcs := [serv.GetGRPCRegistrations registeredServices],
    gateways := [serv.GetGatewayRegistration registeredServices],
    cleanups := serv.Cleanups }

/-- The registered service advertises at least one name of the group. -/
def advertisesOneOf {G H C : Type} (registeredServices : List String)
    (serv : ServiceTypes G H C) : Prop :=
  ∃ n, n ∈ serv.AvailableServices ∧ n ∈ registeredServices

instance advertisesOneOf.decidable {G H C : Type} (registeredServices : List String)
    (serv : ServiceTypes G H C) : Decidable (advertisesOneOf registeredServices serv) := by
  unfold advertisesOneOf
  infer_instance

/-- A registered service for counting invocations: it advertises `available`,
its GRPC registration records `tag` on the server it is given and its gateway
registration records `tag` on the multiplexer and succeeds. -/
def recordingService (tag : String) (available : List String) :
    ServiceTypes (GRPCRegistrations (List String))
      (HandlerRegistrations Unit (List String) String) Unit :=
  { AvailableServices := available
    GetGRPCRegistrations := fun _ server => server ++ [tag]
    GetGatewayRegistration := fun _ _ mux => (mux ++ [tag], none)
    Cleanups := [()] }

/-- An API record with the given needs, listen address and gateway timeouts
(read, read-header, write, idle). -/
def mkAPI (needs : List String) (address : String) (read readHeader write idle : Duration) :
    API :=
  { Needs := needs, GRPC := { ListenAddress := address },
    Gateway := { ReadTimeout := read, ReadHeaderTimeout := readHeader,
                 WriteTimeout := write, IdleTimeout := idle } }

/-- A heap holding the given records at the pointers 0, 1, 2, ... -/
def heapOf (records : List API) : Heap := fun p => records.getD p (mkAPI [] "" 0 0 0 0)

/-- No list of the dependency map has a duplicate or holds its own key. -/
def DependencyMapClean (dm : GoMap (List String)) : Prop :=
  ∀ k, (GoMap.getSlice dm k).Nodup ∧ k ∉ GoMap.getSlice dm k

/-- The service name is configured: it is a key of `APIConfig.Services`. -/
def configured (cfg : Config) (name : String) : Prop :=
  (GoMap.lookup cfg.Services name).isSome = true

instance configured.decidable (cfg : Config) (name : String) :
    Decidable (configured cfg name) := by
  unfold configured
  infer_instance

/-- The reader rule: a configured "reader" listens on the address of the
remote directory resolver. -/
def readerRuleHolds (cfg : Config) (heap : Heap) : Prop :=
  ∀ readerConfig, GoMap.lookup cfg.Services "reader" = some readerConfig →
    (heap readerConfig).GRPC.ListenAddress = cfg.DirectoryResolverAddress

/-- The console rule: with a configured "console", "model" is configured. -/
def consoleRuleHolds (cfg : Config) : Prop :=
  configured cfg "console" → configured cfg "model"

instance consoleRuleHolds.decidable (cfg : Config) : Decidable (consoleRuleHolds cfg) := by
  unfold consoleRuleHolds
  infer_instance

/-- The name is advertised by at least one registered service. -/
def advertised {G H C : Type} (Services : GoMap (ServiceTypes G H C)) (name : String) : Prop :=
  ∃ e, e ∈ Services ∧ name ∈ e.2.AvailableServices

/-- The name list of the group keyed by `address` in a port map: empty when
there is no such group. -/
def groupNames (portMap : GoMap services) (address : String) : List String :=
  match GoMap.lookup portMap address with
  | some g => g.registeredServices
  | none => []

/-- The multiplexer after the gateway registrations of the list have all been
invoked on it, in order, whatever they return. -/
def invokeAll {ρ μ ε : Type} (gateways : List (HandlerRegistrations ρ μ ε)) (args : ρ)
    (mux : μ) : μ :=
  gateways.foldl (fun m f => (f args m).1) mux

/-- What the registration at position `i` returns when it is invoked after the
`i` registrations before it: `some none` is success, `some (some err)` is the
failure `err`, and `none` says the list has no position `i`. -/
def outcomeAt {ρ μ ε : Type} (gateways : List (HandlerRegistrations ρ μ ε)) (args : ρ)
    (mux : μ) (i : Nat) : Option (Option ε) :=
  (gateways.get? i).map (fun f => (f args (invokeAll (gateways.take i) args mux)).2)

/-- A gateway registration that records `tag` on the multiplexer and
succeeds. -/
def recordingGateway (tag : String) : HandlerRegistrations Unit (List String) String :=
  fun _ mux => (mux ++ [tag], none)

/-- A gateway registration that records `tag` on the multiplexer and fails with
the error `err`. -/
def failingGateway (tag err : String) : HandlerRegistrations Unit (List String) String :=
  fun _ mux => (mux ++ [tag], some err)

/-- What `GetDecisionLogger` returns from the result of the one constructor it
called: the logger with a nil error, or nil with the error of the
constructor. -/
def returned {ω ε L : Type} (r : ω × (Option L × Option ε)) : ω × (Option L × Option ε) :=
  match r with
  | (w1, (_, some err)) => (w1, (none, some err))
  | (w1, (decisionlogger, none)) => (w1, (decisionlogger, none))

/-- Backends for counting constructor calls: each records its name on the
world; the self backend fails with "dial", the file backend returns the path it
was given, the no-op backend returns "nop". -/
def recordingBackends : LoggerBackends (List String) String String :=
  { selfNew := fun _ w => (w ++ ["self.New"], (some "self", some "dial"))
    fileNew := fun fc w => (w ++ ["file.New"], (some fc.LogFilePath, none))
    nopNew := fun w => (w ++ ["nop.New"], (some "nop", none)) }

/-- The manager that `Start` hands to `StartServers`: the one it was given,
with the dependency map built by the dependency loop. -/
def managerBeforeStartServers (Services : GoMap Ptr) (heap : Heap) (m : Manager) : Manager :=
  { m with DependencyMap := StartDependencyLoop Services heap m.DependencyMap }

/-- The name refers to a configured service. -/
def resolvable (Services : GoMap Ptr) (name : String) : Bool :=
  (GoMap.lookup Services name).isSome

/-- The edge `k -> a` is justified by the configuration: a configured service
S listens on `k`, a configured service D listens on `a`, `a` differs from `k`,
and the name of D is in the needs of S. -/
def EdgeJustified (Services : GoMap Ptr) (heap : Heap) (k a : String) : Prop :=
  ∃ S, S ∈ Services ∧ (heap S.2).GRPC.ListenAddress = k ∧
    ∃ D, D ∈ Services ∧ D.1 ∈ (heap S.2).Needs ∧
      (heap D.2).GRPC.ListenAddress = a ∧ a ≠ k

/-- The heap in which the needs of the record at `p` are replaced. -/
def withNeeds (heap : Heap) (p : Ptr) (needs : List String) : Heap :=
  heap.update p { heap p with Needs := needs }

/-- Every edge of the dependency map is justified, and every key has an
edge. -/
def DependencyMapJustified (Services : GoMap Ptr) (heap : Heap)
    (dm : GoMap (List String)) : Prop :=
  (∀ k a, a ∈ GoMap.getSlice dm k → EdgeJustified Services heap k a) ∧
  (∀ k, k ∈ GoMap.keys dm → GoMap.getSlice dm k ≠ [])

/-- The pointer of the group keyed by `address` in a port map, if there is
such a group. -/
def groupAPI (portMap : GoMap services) (address : String) : Option Ptr :=
  (GoMap.lookup portMap address).map (fun g => g.API)

/-- The first entry of the configuration, in iteration order, whose listen
address is `address`. -/
def firstFor (api : GoMap Ptr) (heap : Heap) (address : String) : Option (String × Ptr) :=
  api.find? (fun e => decide ((heap e.2).GRPC.ListenAddress = address))

/-- The pointer through which one iteration of the loop of `mapToGRPCPorts`
writes the defaults: `serv.API`, that of the existing group or that of the
entry. -/
def stepPointer (st : PortState) (entry : String × Ptr) : Ptr :=
  match GoMap.lookup st.portMap (st.heap entry.2).GRPC.ListenAddress with
  | some existing => existing.API
  | none => entry.2

/-- The pointers written through by the loop of `mapToGRPCPorts` over the
entries, in order, from the state `st`. -/
def touched : PortState → GoMap Ptr → List Ptr
  | _, [] => []
  | st, entry :: rest => stepPointer st entry :: touched (mapToGRPCPortsStep st entry) rest

/-- The record at `p` already has its defaults: writing them again changes
nothing. -/
def Defaulted (heap : Heap) (p : Ptr) : Prop :=
  setDefaultGatewayTimeouts (heap p) = heap p

/-- The steps that group, compose or register: `mapToGRPCPorts` and the steps
of the loop over the groups. -/
def Event.groupsOrComposes : Event → Bool
  | .mapToGRPCPorts => true
  | .GetMiddlewaresForService _ => true
  | .CreateService _ _ => true
  | .mountConsole _ => true
  | .AddGRPCServer _ => true
  | _ => false

/-- Collaborators that all succeed, with recording services for the edge
directory, the authorizer and the console. -/
def succeedingCollaborators :
    Collaborators String (GRPCRegistrations (List String))
      (HandlerRegistrations Unit (List String) String) Unit :=
  { SetupHealthServer := none
    SetupMetricsServer := none
    edsNew := none
    NewEdgeDir := .ok (recordingService "edge" ["reader", "writer"])
    NewAuthorizer := fun _ => .ok (recordingService "authorizer" ["authorizer"])
    NewConsole := recordingService "console" ["console"]
    GetMiddlewaresForService := fun _ => none
    CreateService := fun _ _ => none
    AddGRPCServer := fun _ => none }

/-! ## Basic facts -/

theorem contains_iff_mem {α : Type} [DecidableEq α] (l : List α) (a : α) :
    contains l a = true ↔ a ∈ l := by
  induction l with
  | nil => simp [contains]
  | cons x xs ih =>
    simp only [contains]
    by_cases h : x = a
    · simp [h]
    · have h2 : ¬ a = x := fun e => h e.symm
      simp [h, h2, ih]

theorem contains_eq_false_iff {α : Type} [DecidableEq α] (l : List α) (a : α) :
    contains l a = false ↔ a ∉ l := by
  rw [← contains_iff_mem]; simp

theorem GoMap.lookup_set {β : Type} (m : GoMap β) (k q : String) (v : β) :
    GoMap.lookup (GoMap.set m k v) q = if q = k then some v else GoMap.lookup m q := by
  induction m with
  | nil =>
    by_cases h : q = k
    · simp [GoMap.set, GoMap.lookup, h]
    · have h2 : ¬ k = q := fun e => h e.symm
      simp [GoMap.set, GoMap.lookup, h, h2]
  | cons e rest ih =>
    obtain ⟨k1, v1⟩ := e
    by_cases h1 : k1 = k
    · subst h1
      by_cases h : q = k1
      · simp [GoMap.set, GoMap.lookup, h]
      · have h2 : ¬ k1 = q := fun e => h e.symm
        simp [GoMap.set, GoMap.lookup, h, h2]
    · by_cases h : k1 = q
      · subst h
        simp [GoMap.set, GoMap.lookup, h1]
      · simp [GoMap.set, GoMap.lookup, h1, h, ih]

theorem GoMap.getSlice_set {α : Type} (m : GoMap (List α)) (k q : String) (v : List α) :
    GoMap.getSlice (GoMap.set m k v) q = if q = k then v else GoMap.getSlice m q := by
  unfold GoMap.getSlice
  rw [GoMap.lookup_set]
  split_ifs <;> rfl

/-! ## The composer loop -/

theorem Collected.append_empty_left {G H C : Type} (a : Collected G H C) :
    Collected.append Collected.empty a = a := by
  cases a; simp [Collected.append, Collected.empty]

theorem Collected.append_empty_right {G H C : Type} (a : Collected G H C) :
    Collected.append a Collected.empty = a := by
  cases a; simp [Collected.append, Collected.empty]

theorem Collected.append_assoc {G H C : Type} (a b c : Collected G H C) :
    Collected.append (Collected.append a b) c = Collected.append a (Collected.append b c) := by
  simp [Collected.append]

theorem composerNamesLoop_consumed {G H C : Type} (names : List String)
    (serv : ServiceTypes G H C) (available : List String) (acc : Collected G H C) :
    composerNamesLoop names serv available (acc, false) = (acc, false) := by
  induction available with
  | nil => rfl
  | cons n rest ih =>
    have : composerNamesLoop names serv (n :: rest) (acc, false)
        = composerNamesLoop names serv rest (acc, false) := by
      simp [composerNamesLoop]
    rw [this, ih]

theorem composerNamesLoop_fresh {G H C : Type} (names : List String)
    (serv : ServiceTypes G H C) (available : List String) (acc : Collected G H C) :
    composerNamesLoop names serv available (acc, true)
      = if (∃ n, n ∈ available ∧ n ∈ names) then
          (Collected.append acc (contribution names serv), false)
        else (acc, true) := by
  induction available with
  | nil => simp [composerNamesLoop]
  | cons n rest ih =>
    by_cases hn : n ∈ names
    · have h1 : composerNamesLoop names serv (n :: rest) (acc, true)
          = composerNamesLoop names serv rest
              (Collected.append acc (contribution names serv), false) := by
        simp [composerNamesLoop, (contains_iff_mem names n).2 hn, Collected.append,
          contribution]
      rw [h1, composerNamesLoop_consumed]
      have : ∃ m, m ∈ n :: rest ∧ m ∈ names := ⟨n, by simp, hn⟩
      rw [if_pos this]
    · have h1 : composerNamesLoop names serv (n :: rest) (acc, true)
          = composerNamesLoop names serv rest (acc, true) := by
        simp [composerNamesLoop, (contains_eq_false_iff names n).2 hn]
      rw [h1, ih]
      have : (∃ m, m ∈ n :: rest ∧ m ∈ names) ↔ (∃ m, m ∈ rest ∧ m ∈ names) := by
        constructor
        · rintro ⟨m, hm, hmn⟩
          rcases List.mem_cons.1 hm with rfl | hm
          · exact absurd hmn hn
          · exact ⟨m, hm, hmn⟩
        · rintro ⟨m, hm, hmn⟩
          exact ⟨m, List.mem_cons_of_mem _ hm, hmn⟩
      simp only [this]

theorem composerStep_eq {G H C : Type} (names : List String) (acc : Collected G H C)
    (entry : String × ServiceTypes G H C) :
    composerStep names acc entry
      = if advertisesOneOf names entry.2 then
          Collected.append acc (contribution names entry.2)
        else acc := by
  unfold composerStep advertisesOneOf
  rw [composerNamesLoop_fresh]
  split_ifs <;> rfl

theorem composerStep_append {G H C : Type} (names : List String) (acc : Collected G H C)
    (entry : String × ServiceTypes G H C) :
    composerStep names acc entry
      = Collected.append acc (composerStep names Collected.empty entry) := by
  rw [composerStep_eq, composerStep_eq]
  split_ifs
  · rw [Collected.append_empty_left]
  · rw [Collected.append_empty_right]

theorem composerLoopFrom_eq_append {G H C : Type} (names : List String)
    (Services : GoMap (ServiceTypes G H C)) (acc : Collected G H C) :
    composerLoopFrom names acc Services
      = Collected.append acc (composerLoop names Services) := by
  induction Services generalizing acc with
  | nil => simp [composerLoopFrom, composerLoop, Collected.append_empty_right]
  | cons e rest ih =>
    have h1 : composerLoopFrom names acc (e :: rest)
        = composerLoopFrom names (composerStep names acc e) rest := rfl
    have h2 : composerLoop names (e :: rest)
        = composerLoopFrom names (composerStep names Collected.empty e) rest := rfl
    rw [h1, h2, ih, ih (composerStep names Collected.empty e), ← Collected.append_assoc,
      ← composerStep_append]

theorem composerLoop_append {G H C : Type} (names : List String)
    (pre post : GoMap (ServiceTypes G H C)) :
    composerLoop names (pre ++ post)
      = Collected.append (composerLoop names pre) (composerLoop names post) := by
  have : composerLoop names (pre ++ post)
      = composerLoopFrom names (composerLoop names pre) post := by
    simp [composerLoop, composerLoopFrom, List.foldl_append]
  rw [this, composerLoopFrom_eq_append]

theorem composerLoop_single {G H C : Type} (names : List String)
    (entry : String × ServiceTypes G H C) :
    composerLoop names [entry]
      = if advertisesOneOf names entry.2 then contribution names entry.2
        else Collected.empty := by
  have : composerLoop names [entry] = composerStep names Collected.empty entry := rfl
  rw [this, composerStep_eq]
  split_ifs
  · rw [Collected.append_empty_left]
  · rfl

theorem composerLoop_split {G H C : Type} (names : List String)
    (pre post : GoMap (ServiceTypes G H C)) (entry : String × ServiceTypes G H C) :
    composerLoop names (pre ++ entry :: post)
      = Collected.append (composerLoop names pre)
          (Collected.append
            (if advertisesOneOf names entry.2 then contribution names entry.2
             else Collected.empty)
            (composerLoop names post)) := by
  have : pre ++ entry :: post = pre ++ ([entry] ++ post) := by simp
  rw [this, composerLoop_append, composerLoop_append, composerLoop_single]

theorem composerLoop_nil {G H C : Type} (names : List String) :
    composerLoop names ([] : GoMap (ServiceTypes G H C)) = Collected.empty := rfl

theorem composerLoop_cons {G H C : Type} (names : List String)
    (entry : String × ServiceTypes G H C) (rest : GoMap (ServiceTypes G H C)) :
    composerLoop names (entry :: rest)
      = Collected.append
          (if advertisesOneOf names entry.2 then contribution names entry.2
           else Collected.empty)
          (composerLoop names rest) := by
  have h := composerLoop_split names [] rest entry
  rw [composerLoop_nil, Collected.append_empty_left] at h
  exact h

theorem composerLoop_eq_filter {G H C : Type} (names : List String)
    (Services : GoMap (ServiceTypes G H C)) :
    composerLoop names Services
      = { grpcs := (Services.filter (fun e => decide (advertisesOneOf names e.2))).map
            (fun e => e.2.GetGRPCRegistrations names),
          gateways := (Services.filter (fun e => decide (advertisesOneOf names e.2))).map
            (fun e => e.2.GetGatewayRegistration names),
          cleanups := (Services.filter (fun e => decide (advertisesOneOf names e.2))).flatMap
            (fun e => e.2.Cleanups) } := by
  induction Services with
  | nil => rfl
  | cons e rest ih =>
    rw [composerLoop_cons, ih]
    by_cases h : advertisesOneOf names e.2
    · simp [h, Collected.append, contribution]
    · simp [h, Collected.append, Collected.empty]

/-! ## C1: two services advertising the same capability -/

/-- C1, as stated, fails: with the registry of two services `first` and
`second` that both advertise "foo", and a group whose name list is `["foo"]`,
the composer loop collects the registrations of both; invoking the composed
closures calls the registrations of `second` once each, not zero times. -/
theorem C1_both_services_attached :
    (composedGRPC
        (composerLoop ["foo"]
          [("first", recordingService "first" ["foo"]),
           ("second", recordingService "second" ["foo"])]).grpcs []).count "first" = 1 ∧
    (composedGRPC
        (composerLoop ["foo"]
          [("first", recordingService "first" ["foo"]),
           ("second", recordingService "second" ["foo"])]).grpcs []).count "second" = 1 ∧
    ((composedGateway
        (composerLoop ["foo"]
          [("first", recordingService "first" ["foo"]),
           ("second", recordingService "second" ["foo"])]).gateways () []).1).count "second" = 1 ∧
    ¬ ((composedGRPC
        (composerLoop ["foo"]
          [("first", recordingService "first" ["foo"]),
           ("second", recordingService "second" ["foo"])]).grpcs []).count "second" = 0) := by
  decide

/-- C1, amended: when two registered services both advertise a capability name
that is in the name list of a group, the composer loop collects the
registrations (GRPC, gateway, cleanups) of both of them, each exactly once, in
registry order: between them and around them stand only the contributions of
the other registered services. -/
theorem C1_overlapping_capability_both_collected {G H C : Type}
    (names : List String) (capability : String)
    (pre mid post : GoMap (ServiceTypes G H C))
    (first second : String × ServiceTypes G H C)
    (hfirst : capability ∈ first.2.AvailableServices)
    (hsecond : capability ∈ second.2.AvailableServices)
    (hgroup : capability ∈ names) :
    composerLoop names (pre ++ first :: (mid ++ second :: post))
      = Collected.append (composerLoop names pre)
          (Collected.append (contribution names first.2)
            (Collected.append (composerLoop names mid)
              (Collected.append (contribution names second.2)
                (composerLoop names post)))) := by
  have h1 : advertisesOneOf names first.2 := ⟨capability, hfirst, hgroup⟩
  have h2 : advertisesOneOf names second.2 := ⟨capability, hsecond, hgroup⟩
  rw [composerLoop_split, composerLoop_split, if_pos h1, if_pos h2]

/-- Witness of C1, amended: the registry of `first` and `second`, both
advertising "foo", and the group `["foo"]`. -/
theorem C1_overlapping_capability_both_collected_witness :
    ("foo" ∈ (recordingService "first" ["foo"]).AvailableServices ∧
      "foo" ∈ (recordingService "second" ["foo"]).AvailableServices ∧
      "foo" ∈ ["foo"]) ∧
    composerLoop ["foo"]
        ([] ++ ("first", recordingService "first" ["foo"]) ::
          ([] ++ ("second", recordingService "second" ["foo"]) :: []))
      = Collected.append (composerLoop ["foo"] [])
          (Collected.append (contribution ["foo"] (recordingService "first" ["foo"]))
            (Collected.append (composerLoop ["foo"] [])
              (Collected.append (contribution ["foo"] (recordingService "second" ["foo"]))
                (composerLoop ["foo"] [])))) :=
  ⟨by decide,
   C1_overlapping_capability_both_collected ["foo"] "foo" [] [] []
     ("first", recordingService "first" ["foo"])
     ("second", recordingService "second" ["foo"])
     (by decide) (by decide) (by decide)⟩

/-! ## C2: default gateway timeouts -/

/-- C2, the code at a definition with all four timeouts unset: one service
"authorizer" on ":8282" with read, read-header, write and idle timeout 0. The
group of ":8282" comes out with read = 2s and read-header = 2s, but with
write = 30s and idle = 0 (unset): the branch for the idle timeout assigns the
write timeout. -/
theorem C2_unset_timeouts_evaluated :
    (mapToGRPCPorts [("authorizer", 0)] (heapOf [mkAPI [] ":8282" 0 0 0 0])).portMap
      = [(":8282", { registeredServices := ["authorizer"], API := 0 })] ∧
    ((mapToGRPCPorts [("authorizer", 0)] (heapOf [mkAPI [] ":8282" 0 0 0 0])).effective
        { registeredServices := ["authorizer"], API := 0 }).Gateway
      = { ReadTimeout := 2 * Second, ReadHeaderTimeout := 2 * Second,
          WriteTimeout := 30 * Second, IdleTimeout := 0 } := by
  decide

/-! ## C3: the dependency map -/

theorem StartNeedsStep_mono (Services : GoMap Ptr) (heap : Heap) (cfg : Ptr)
    (dm : GoMap (List String)) (name k x : String) (hx : x ∈ GoMap.getSlice dm k) :
    x ∈ GoMap.getSlice (StartNeedsStep Services heap cfg dm name) k := by
  unfold StartNeedsStep
  split
  · split_ifs
    · rw [GoMap.getSlice_set]
      split_ifs with hk
      · subst hk; exact List.mem_append_left _ hx
      · exact hx
    · exact hx
  · exact hx

theorem StartNeedsStep_clean (Services : GoMap Ptr) (heap : Heap) (cfg : Ptr)
    (dm : GoMap (List String)) (name : String) (h : DependencyMapClean dm) :
    DependencyMapClean (StartNeedsStep Services heap cfg dm name) := by
  unfold StartNeedsStep
  split
  · rename_i dep _
    split_ifs with hc
    · simp only [Bool.and_eq_true, Bool.not_eq_true', decide_eq_true_eq] at hc
      obtain ⟨hnot, hne⟩ := hc
      rw [contains_eq_false_iff] at hnot
      intro k
      rw [GoMap.getSlice_set]
      split_ifs with hk
      · subst hk
        refine ⟨?_, ?_⟩
        · rw [List.nodup_append]
          refine ⟨(h _).1, List.nodup_singleton _, ?_⟩
          intro a ha hb
          rw [List.mem_singleton] at hb
          subst hb
          exact hnot ha
        · intro hmem
          rcases List.mem_append.1 hmem with h1 | h1
          · exact (h _).2 h1
          · exact hne (List.mem_singleton.1 h1)
      · exact h k
    · exact h
  · exact h

theorem StartNeedsStep_adds (Services : GoMap Ptr) (heap : Heap) (cfg dep : Ptr)
    (dm : GoMap (List String)) (name : String)
    (hdep : GoMap.lookup Services name = some dep)
    (hne : (heap cfg).GRPC.ListenAddress ≠ (heap dep).GRPC.ListenAddress) :
    (heap dep).GRPC.ListenAddress
      ∈ GoMap.getSlice (StartNeedsStep Services heap cfg dm name)
          (heap cfg).GRPC.ListenAddress := by
  unfold StartNeedsStep
  rw [hdep]
  by_cases hin : (heap dep).GRPC.ListenAddress
      ∈ GoMap.getSlice dm (heap cfg).GRPC.ListenAddress
  · have : contains (GoMap.getSlice dm (heap cfg).GRPC.ListenAddress)
        (heap dep).GRPC.ListenAddress = true := (contains_iff_mem _ _).2 hin
    simp [this, hin]
  · have : contains (GoMap.getSlice dm (heap cfg).GRPC.ListenAddress)
        (heap dep).GRPC.ListenAddress = false := (contains_eq_false_iff _ _).2 hin
    simp [this, hne, GoMap.getSlice_set]

theorem StartNeedsLoop_mono (Services : GoMap Ptr) (heap : Heap) (cfg : Ptr)
    (needs : List String) (dm : GoMap (List String)) (k x : String)
    (hx : x ∈ GoMap.getSlice dm k) :
    x ∈ GoMap.getSlice (StartNeedsLoop Services heap cfg dm needs) k := by
  induction needs generalizing dm with
  | nil => exact hx
  | cons n rest ih =>
    exact ih (StartNeedsStep Services heap cfg dm n)
      (StartNeedsStep_mono Services heap cfg dm n k x hx)

theorem StartNeedsLoop_clean (Services : GoMap Ptr) (heap : Heap) (cfg : Ptr)
    (needs : List String) (dm : GoMap (List String)) (h : DependencyMapClean dm) :
    DependencyMapClean (StartNeedsLoop Services heap cfg dm needs) := by
  induction needs generalizing dm with
  | nil => exact h
  | cons n rest ih =>
    exact ih (StartNeedsStep Services heap cfg dm n)
      (StartNeedsStep_clean Services heap cfg dm n h)

theorem StartNeedsLoop_adds (Services : GoMap Ptr) (heap : Heap) (cfg dep : Ptr)
    (needs : List String) (dm : GoMap (List String)) (name : String)
    (hname : name ∈ needs)
    (hdep : GoMap.lookup Services name = some dep)
    (hne : (heap cfg).GRPC.ListenAddress ≠ (heap dep).GRPC.ListenAddress) :
    (heap dep).GRPC.ListenAddress
      ∈ GoMap.getSlice (StartNeedsLoop Services heap cfg dm needs)
          (heap cfg).GRPC.ListenAddress := by
  induction needs generalizing dm with
  | nil => simp at hname
  | cons n rest ih =>
    rcases List.mem_cons.1 hname with rfl | hrest
    · exact StartNeedsLoop_mono Services heap cfg rest _ _ _
        (StartNeedsStep_adds Services heap cfg dep dm name hdep hne)
    · exact ih (StartNeedsStep Services heap cfg dm n) hrest

theorem StartDependencyStep_mono (Services : GoMap Ptr) (heap : Heap)
    (dm : GoMap (List String)) (entry : String × Ptr) (k x : String)
    (hx : x ∈ GoMap.getSlice dm k) :
    x ∈ GoMap.getSlice (StartDependencyStep Services heap dm entry) k := by
  unfold StartDependencyStep
  split_ifs
  · exact StartNeedsLoop_mono Services heap entry.2 _ dm k x hx
  · exact hx

theorem StartDependencyStep_clean (Services : GoMap Ptr) (heap : Heap)
    (dm : GoMap (List String)) (entry : String × Ptr) (h : DependencyMapClean dm) :
    DependencyMapClean (StartDependencyStep Services heap dm entry) := by
  unfold StartDependencyStep
  split_ifs
  · exact StartNeedsLoop_clean Services heap entry.2 _ dm h
  · exact h

theorem StartDependencyStep_adds (Services : GoMap Ptr) (heap : Heap)
    (dm : GoMap (List String)) (entry : String × Ptr) (dep : Ptr) (name : String)
    (hname : name ∈ (heap entry.2).Needs)
    (hdep : GoMap.lookup Services name = some dep)
    (hne : (heap entry.2).GRPC.ListenAddress ≠ (heap dep).GRPC.ListenAddress) :
    (heap dep).GRPC.ListenAddress
      ∈ GoMap.getSlice (StartDependencyStep Services heap dm entry)
          (heap entry.2).GRPC.ListenAddress := by
  unfold StartDependencyStep
  have hlen : 0 < ((heap entry.2).Needs).length := List.length_pos_of_mem hname
  rw [if_pos hlen]
  exact StartNeedsLoop_adds Services heap entry.2 dep _ dm name hname hdep hne

theorem StartDependencyLoopFrom_mono (Services : GoMap Ptr) (heap : Heap)
    (rest : GoMap Ptr) (dm : GoMap (List String)) (k x : String)
    (hx : x ∈ GoMap.getSlice dm k) :
    x ∈ GoMap.getSlice (StartDependencyLoopFrom Services heap rest dm) k := by
  induction rest generalizing dm with
  | nil => exact hx
  | cons e rest ih =>
    exact ih (StartDependencyStep Services heap dm e)
      (StartDependencyStep_mono Services heap dm e k x hx)

theorem StartDependencyLoopFrom_clean (Services : GoMap Ptr) (heap : Heap)
    (rest : GoMap Ptr) (dm : GoMap (List String)) (h : DependencyMapClean dm) :
    DependencyMapClean (StartDependencyLoopFrom Services heap rest dm) := by
  induction rest generalizing dm with
  | nil => exact h
  | cons e rest ih =>
    exact ih (StartDependencyStep Services heap dm e)
      (StartDependencyStep_clean Services heap dm e h)

theorem StartDependencyLoopFrom_adds (Services : GoMap Ptr) (heap : Heap)
    (rest : GoMap Ptr) (dm : GoMap (List String)) (entry : String × Ptr) (dep : Ptr)
    (name : String) (hentry : entry ∈ rest)
    (hname : name ∈ (heap entry.2).Needs)
    (hdep : GoMap.lookup Services name = some dep)
    (hne : (heap entry.2).GRPC.ListenAddress ≠ (heap dep).GRPC.ListenAddress) :
    (heap dep).GRPC.ListenAddress
      ∈ GoMap.getSlice (StartDependencyLoopFrom Services heap rest dm)
          (heap entry.2).GRPC.ListenAddress := by
  induction rest generalizing dm with
  | nil => simp at hentry
  | cons e rest ih =>
    rcases List.mem_cons.1 hentry with rfl | hrest
    · exact StartDependencyLoopFrom_mono Services heap rest _ _ _
        (StartDependencyStep_adds Services heap dm entry dep name hname hdep hne)
    · exact ih (StartDependencyStep Services heap dm e) hrest

/-- C3: from a dependency map without duplicate and without self-referential
entries, the dependency loop of `Start` leaves a map in which, for every
configured service S and every configured name D of `S.Needs` whose listen
address differs from that of S, the list of the address of S holds the address
of D exactly once; and no list holds its own key. -/
theorem C3_dependency_edges_once_no_self (Services : GoMap Ptr) (heap : Heap)
    (dm : GoMap (List String))
    (hdup : ∀ k, (GoMap.getSlice dm k).Nodup)
    (hself : ∀ k, k ∉ GoMap.getSlice dm k) :
    (∀ S, S ∈ Services → ∀ D, D ∈ (heap S.2).Needs →
      ∀ dependencyConfig, GoMap.lookup Services D = some dependencyConfig →
        (heap S.2).GRPC.ListenAddress ≠ (heap dependencyConfig).GRPC.ListenAddress →
        (GoMap.getSlice (StartDependencyLoop Services heap dm)
            (heap S.2).GRPC.ListenAddress).count
          (heap dependencyConfig).GRPC.ListenAddress = 1) ∧
    (∀ k, k ∉ GoMap.getSlice (StartDependencyLoop Services heap dm) k) := by
  have hclean : DependencyMapClean (StartDependencyLoop Services heap dm) :=
    StartDependencyLoopFrom_clean Services heap Services dm (fun k => ⟨hdup k, hself k⟩)
  refine ⟨?_, fun k => (hclean k).2⟩
  intro S hS D hD dep hdep hne
  exact List.count_eq_one_of_mem (hclean _).1
    (StartDependencyLoopFrom_adds Services heap Services dm S dep D hS hD hdep hne)

/-- Witness of C3: "authorizer" on ":8282" needs "reader" (on ":9292") twice
and itself once; from the empty dependency map the list of ":8282" holds
":9292" exactly once. -/
theorem C3_dependency_edges_once_no_self_witness :
    ((∀ k, (GoMap.getSlice ([] : GoMap (List String)) k).Nodup) ∧
      (∀ k, k ∉ GoMap.getSlice ([] : GoMap (List String)) k)) ∧
    (GoMap.getSlice
        (StartDependencyLoop [("authorizer", 0), ("reader", 1)]
          (heapOf [mkAPI ["reader", "authorizer", "reader"] ":8282" 0 0 0 0,
                   mkAPI [] ":9292" 0 0 0 0]) [])
        ":8282").count ":9292" = 1 :=
  ⟨⟨fun _ => List.nodup_nil, fun _ => List.not_mem_nil _⟩,
   (C3_dependency_edges_once_no_self [("authorizer", 0), ("reader", 1)]
      (heapOf [mkAPI ["reader", "authorizer", "reader"] ":8282" 0 0 0 0,
               mkAPI [] ":9292" 0 0 0 0]) []
      (fun _ => List.nodup_nil) (fun _ => List.not_mem_nil _)).1
      ("authorizer", 0) (by decide) "reader" (by decide) 1 (by decide) (by decide)⟩

/-! ## `validateConfig` -/

theorem validKey_iff {G H C : Type} (Services : GoMap (ServiceTypes G H C)) (key : String) :
    validKey Services key = true ↔ advertised Services key := by
  induction Services with
  | nil => simp [validKey, advertised]
  | cons e rest ih =>
    obtain ⟨k, service⟩ := e
    unfold validKey
    by_cases h : key ∈ service.AvailableServices
    · rw [if_pos ((contains_iff_mem _ _).2 h)]
      exact ⟨fun _ => ⟨(k, service), List.mem_cons_self _ _, h⟩, fun _ => rfl⟩
    · have hc : ¬ contains service.AvailableServices key = true :=
        fun hc => h ((contains_iff_mem _ _).1 hc)
      rw [if_neg hc, ih]
      constructor
      · rintro ⟨e, he, hk⟩
        exact ⟨e, List.mem_cons_of_mem _ he, hk⟩
      · rintro ⟨e, he, hk⟩
        rcases List.mem_cons.1 he with rfl | he
        · exact absurd hk h
        · exact ⟨e, he, hk⟩

theorem validateKeys_eq_none_iff {G H C : Type} (Services : GoMap (ServiceTypes G H C))
    (m : GoMap Ptr) :
    validateKeys Services m = none ↔ ∀ key, key ∈ GoMap.keys m → advertised Services key := by
  induction m with
  | nil => simp [validateKeys, GoMap.keys]
  | cons e rest ih =>
    obtain ⟨k, p⟩ := e
    unfold validateKeys
    by_cases h : validKey Services k = true
    · simp only [h, Bool.not_true, Bool.false_eq_true, if_false, ih]
      constructor
      · intro hall key hkey
        simp only [GoMap.keys, List.map_cons, List.mem_cons] at hkey
        rcases hkey with rfl | hkey
        · exact (validKey_iff _ _).1 h
        · exact hall key hkey
      · intro hall key hkey
        exact hall key (by simp only [GoMap.keys, List.map_cons, List.mem_cons]; exact Or.inr hkey)
    · have hf : validKey Services k = false := by simpa using h
      simp only [hf, Bool.not_false, if_true]
      constructor
      · intro hc; exact absurd hc (by simp)
      · intro hall
        exact absurd ((validKey_iff _ _).2 (hall k (by simp [GoMap.keys]))) h

theorem validateKeys_eq_some {G H C : Type} (Services : GoMap (ServiceTypes G H C))
    (m : GoMap Ptr) (err : ValidationError) (h : validateKeys Services m = some err) :
    ∃ key, key ∈ GoMap.keys m ∧ ¬ advertised Services key ∧
      err = ValidationError.unknownServiceType key := by
  induction m with
  | nil => simp [validateKeys] at h
  | cons e rest ih =>
    obtain ⟨k, p⟩ := e
    unfold validateKeys at h
    by_cases hv : validKey Services k = true
    · simp only [hv, Bool.not_true, Bool.false_eq_true, if_false] at h
      obtain ⟨key, hkey, hrest⟩ := ih h
      exact ⟨key, by simp only [GoMap.keys, List.map_cons, List.mem_cons]; exact Or.inr hkey,
        hrest⟩
    · have hf : validKey Services k = false := by simpa using hv
      simp only [hf, Bool.not_false, if_true, Option.some.injEq] at h
      exact ⟨k, by simp [GoMap.keys], fun ha => hv ((validKey_iff _ _).2 ha), h.symm⟩

theorem validateReader_eq_none_iff (cfg : Config) (heap : Heap) :
    validateReader cfg heap = none ↔ readerRuleHolds cfg heap := by
  unfold validateReader readerRuleHolds
  cases hl : GoMap.lookup cfg.Services "reader" with
  | none => simp
  | some r =>
    by_cases h : (heap r).GRPC.ListenAddress = cfg.DirectoryResolverAddress
    · simp [h]
    · simp [h]

theorem validateReader_eq_some (cfg : Config) (heap : Heap) (err : ValidationError)
    (h : validateReader cfg heap = some err) : err = ValidationError.readerAddressMismatch := by
  unfold validateReader at h
  cases hl : GoMap.lookup cfg.Services "reader" with
  | none => simp [hl] at h
  | some r =>
    rw [hl] at h
    by_cases ha : (heap r).GRPC.ListenAddress = cfg.DirectoryResolverAddress
    · simp [ha] at h
    · simp [ha] at h
      exact h.symm

theorem validateConsole_eq_none_iff (cfg : Config) :
    validateConsole cfg = none ↔ consoleRuleHolds cfg := by
  unfold validateConsole consoleRuleHolds configured
  cases hc : GoMap.lookup cfg.Services "console" with
  | none => simp
  | some c =>
    cases hm : GoMap.lookup cfg.Services "model" with
    | none => simp
    | some m => simp

theorem validateConsole_eq_some (cfg : Config) (err : ValidationError)
    (h : validateConsole cfg = some err) : err = ValidationError.consoleNeedsModel := by
  unfold validateConsole at h
  cases hc : GoMap.lookup cfg.Services "console" with
  | none => simp [hc] at h
  | some c =>
    rw [hc] at h
    cases hm : GoMap.lookup cfg.Services "model" with
    | none =>
      rw [hm] at h
      simp at h
      exact h.symm
    | some m =>
      rw [hm] at h
      simp at h

theorem validateConfig_of_reader_none {G H C : Type} (cfg : Config) (heap : Heap)
    (Services : GoMap (ServiceTypes G H C)) (h : validateReader cfg heap = none) :
    validateConfig cfg heap Services
      = match validateConsole cfg with
        | some err => some err
        | none => validateKeys Services cfg.Services := by
  unfold validateConfig
  rw [h]

theorem validateConfig_of_rules {G H C : Type} (cfg : Config) (heap : Heap)
    (Services : GoMap (ServiceTypes G H C)) (h : validateReader cfg heap = none)
    (hc : validateConsole cfg = none) :
    validateConfig cfg heap Services = validateKeys Services cfg.Services := by
  rw [validateConfig_of_reader_none cfg heap Services h, hc]

/-! ## C4: console needs model -/

/-- C4: for a configuration in which the reader rule holds and every
configured name is advertised by a registered service, `validateConfig` returns
an error exactly when "console" is configured and "model" is not, and the error
is then the console error; so console with model is accepted, and so is a
configuration with neither. -/
theorem C4_console_without_model_rejected {G H C : Type} (cfg : Config) (heap : Heap)
    (Services : GoMap (ServiceTypes G H C))
    (hreader : readerRuleHolds cfg heap)
    (hadvertised : ∀ key, key ∈ GoMap.keys cfg.Services → advertised Services key) :
    (validateConfig cfg heap Services ≠ none ↔
      (configured cfg "console" ∧ ¬ configured cfg "model")) ∧
    ((configured cfg "console" ∧ ¬ configured cfg "model") →
      validateConfig cfg heap Services = some ValidationError.consoleNeedsModel) := by
  have hr : validateReader cfg heap = none := (validateReader_eq_none_iff cfg heap).2 hreader
  have hk : validateKeys Services cfg.Services = none :=
    (validateKeys_eq_none_iff Services cfg.Services).2 hadvertised
  have key : (configured cfg "console" ∧ ¬ configured cfg "model") →
      validateConfig cfg heap Services = some ValidationError.consoleNeedsModel := by
    intro hcm
    have hnot : ¬ consoleRuleHolds cfg := fun hrule => hcm.2 (hrule hcm.1)
    rw [validateConfig_of_reader_none cfg heap Services hr]
    cases hc : validateConsole cfg with
    | none => exact absurd ((validateConsole_eq_none_iff cfg).1 hc) hnot
    | some err => rw [validateConsole_eq_some cfg err hc]
  refine ⟨⟨?_, ?_⟩, key⟩
  · intro hne
    by_contra hcon
    have hrule : consoleRuleHolds cfg := by
      intro hconsole
      by_contra hmodel
      exact hcon ⟨hconsole, hmodel⟩
    apply hne
    rw [validateConfig_of_rules cfg heap Services hr
      ((validateConsole_eq_none_iff cfg).2 hrule), hk]
  · intro hcm
    rw [key hcm]
    simp

/-- Witness of C4: the services "console" and "authorizer", both advertised,
without "model": rejected with the console error. -/
theorem C4_console_without_model_rejected_witness :
    (readerRuleHolds { Services := [("console", 0), ("authorizer", 1)],
                       DirectoryResolverAddress := ":9292" }
        (heapOf [mkAPI [] ":8080" 0 0 0 0, mkAPI [] ":8282" 0 0 0 0]) ∧
      (∀ key, key ∈ GoMap.keys [("console", 0), ("authorizer", 1)] →
        advertised [("authorizer", recordingService "authorizer" ["authorizer"]),
                    ("console", recordingService "console" ["console"])] key)) ∧
    validateConfig { Services := [("console", 0), ("authorizer", 1)],
                     DirectoryResolverAddress := ":9292" }
        (heapOf [mkAPI [] ":8080" 0 0 0 0, mkAPI [] ":8282" 0 0 0 0])
        [("authorizer", recordingService "authorizer" ["authorizer"]),
         ("console", recordingService "console" ["console"])]
      = some ValidationError.consoleNeedsModel :=
  ⟨⟨(validateReader_eq_none_iff _ _).1 (by decide),
    (validateKeys_eq_none_iff _ _).1 (by decide)⟩,
   (C4_console_without_model_rejected
      { Services := [("console", 0), ("authorizer", 1)], DirectoryResolverAddress := ":9292" }
      (heapOf [mkAPI [] ":8080" 0 0 0 0, mkAPI [] ":8282" 0 0 0 0])
      [("authorizer", recordingService "authorizer" ["authorizer"]),
       ("console", recordingService "console" ["console"])]
      ((validateReader_eq_none_iff _ _).1 (by decide))
      ((validateKeys_eq_none_iff _ _).1 (by decide))).2 (by decide)⟩

/-! ## C5: the reader address -/

/-- C5: with a configured "reader", `validateConfig` returns the reader error
whenever the listen address of the reader differs from the address of the
remote directory resolver, whatever the rest of the configuration and the
registry; when the two addresses are equal, the reader error is not returned
and the result is that of the remaining checks. -/
theorem C5_reader_address_mismatch_rejected {G H C : Type} (cfg : Config) (heap : Heap)
    (Services : GoMap (ServiceTypes G H C)) (readerConfig : Ptr)
    (hreader : GoMap.lookup cfg.Services "reader" = some readerConfig) :
    ((heap readerConfig).GRPC.ListenAddress ≠ cfg.DirectoryResolverAddress →
      validateConfig cfg heap Services = some ValidationError.readerAddressMismatch) ∧
    ((heap readerConfig).GRPC.ListenAddress = cfg.DirectoryResolverAddress →
      validateConfig cfg heap Services ≠ some ValidationError.readerAddressMismatch ∧
      validateConfig cfg heap Services
        = match validateConsole cfg with
          | some err => some err
          | none => validateKeys Services cfg.Services) := by
  constructor
  · intro hne
    unfold validateConfig validateReader
    rw [hreader]
    simp [hne]
  · intro heq
    have hr : validateReader cfg heap = none := by
      unfold validateReader
      rw [hreader]
      simp [heq]
    refine ⟨?_, validateConfig_of_reader_none cfg heap Services hr⟩
    rw [validateConfig_of_reader_none cfg heap Services hr]
    cases hc : validateConsole cfg with
    | some err =>
      rw [validateConsole_eq_some cfg err hc]
      simp
    | none =>
      intro hk
      obtain ⟨key, _, _, herr⟩ := validateKeys_eq_some Services cfg.Services _ hk
      cases herr

/-- Witness of C5: "reader" on ":9292" with the resolver address ":9393" is
rejected with the reader error. -/
theorem C5_reader_address_mismatch_rejected_witness :
    (GoMap.lookup [("authorizer", 0), ("reader", 1)] "reader" = some 1 ∧
      (heapOf [mkAPI [] ":8282" 0 0 0 0, mkAPI [] ":9292" 0 0 0 0] 1).GRPC.ListenAddress
        ≠ ":9393") ∧
    validateConfig { Services := [("authorizer", 0), ("reader", 1)],
                     DirectoryResolverAddress := ":9393" }
        (heapOf [mkAPI [] ":8282" 0 0 0 0, mkAPI [] ":9292" 0 0 0 0])
        [("authorizer", recordingService "authorizer" ["authorizer"]),
         ("edge", recordingService "edge" ["reader", "writer"])]
      = some ValidationError.readerAddressMismatch :=
  ⟨by decide,
   (C5_reader_address_mismatch_rejected
      { Services := [("authorizer", 0), ("reader", 1)], DirectoryResolverAddress := ":9393" }
      (heapOf [mkAPI [] ":8282" 0 0 0 0, mkAPI [] ":9292" 0 0 0 0])
      [("authorizer", recordingService "authorizer" ["authorizer"]),
       ("edge", recordingService "edge" ["reader", "writer"])]
      1 (by decide)).1 (by decide)⟩

/-! ## C6: unknown service types -/

/-- C6: if some configured service name is advertised by no registered
service, `validateConfig` returns an error; when the reader rule and the
console rule hold, that error is "unknown service type <name>" for a configured
name that no registered service advertises; and if every configured name is
advertised, no unknown-service error is returned. -/
theorem C6_unadvertised_name_rejected {G H C : Type} (cfg : Config) (heap : Heap)
    (Services : GoMap (ServiceTypes G H C)) :
    ((∃ key, key ∈ GoMap.keys cfg.Services ∧ ¬ advertised Services key) →
      validateConfig cfg heap Services ≠ none) ∧
    ((∃ key, key ∈ GoMap.keys cfg.Services ∧ ¬ advertised Services key) →
      readerRuleHolds cfg heap → consoleRuleHolds cfg →
      ∃ name, name ∈ GoMap.keys cfg.Services ∧ ¬ advertised Services name ∧
        validateConfig cfg heap Services = some (ValidationError.unknownServiceType name) ∧
        (validateConfig cfg heap Services).map ValidationError.Error
          = some ("unknown service type " ++ name)) ∧
    ((∀ key, key ∈ GoMap.keys cfg.Services → advertised Services key) →
      ∀ name, validateConfig cfg heap Services
        ≠ some (ValidationError.unknownServiceType name)) := by
  have hkeys : (∃ key, key ∈ GoMap.keys cfg.Services ∧ ¬ advertised Services key) →
      validateKeys Services cfg.Services ≠ none := by
    rintro ⟨key, hkey, hnot⟩ hnone
    exact hnot ((validateKeys_eq_none_iff Services cfg.Services).1 hnone key hkey)
  refine ⟨?_, ?_, ?_⟩
  · intro hex
    unfold validateConfig
    cases hr : validateReader cfg heap with
    | some err => simp
    | none =>
      cases hc : validateConsole cfg with
      | some err => simp
      | none => exact hkeys hex
  · intro hex hreader hconsole
    have hv : validateConfig cfg heap Services = validateKeys Services cfg.Services :=
      validateConfig_of_rules cfg heap Services
        ((validateReader_eq_none_iff cfg heap).2 hreader)
        ((validateConsole_eq_none_iff cfg).2 hconsole)
    cases hk : validateKeys Services cfg.Services with
    | none => exact absurd hk (hkeys hex)
    | some err =>
      obtain ⟨name, hname, hnot, herr⟩ := validateKeys_eq_some Services cfg.Services err hk
      subst herr
      refine ⟨name, hname, hnot, ?_, ?_⟩
      · rw [hv, hk]
      · rw [hv, hk]
        rfl
  · intro hall name hname
    have hk : validateKeys Services cfg.Services = none :=
      (validateKeys_eq_none_iff Services cfg.Services).2 hall
    unfold validateConfig at hname
    cases hr : validateReader cfg heap with
    | some err =>
      rw [hr] at hname
      have := validateReader_eq_some cfg heap err hr
      subst this
      simp at hname
    | none =>
      rw [hr] at hname
      cases hc : validateConsole cfg with
      | some err =>
        rw [hc] at hname
        have := validateConsole_eq_some cfg err hc
        subst this
        simp at hname
      | none =>
        rw [hc] at hname
        simp only at hname
        rw [hk] at hname
        simp at hname

/-- Witness of C6: the services "authorizer" and "foo" with a registry that
advertises "authorizer" only: rejected with "unknown service type foo". -/
theorem C6_unadvertised_name_rejected_witness :
    (∃ key, key ∈ GoMap.keys [("authorizer", 0), ("foo", 1)] ∧
      ¬ advertised [("authorizer", recordingService "authorizer" ["authorizer"])] key) ∧
    validateConfig { Services := [("authorizer", 0), ("foo", 1)],
                     DirectoryResolverAddress := "" }
        (heapOf [mkAPI [] ":8282" 0 0 0 0, mkAPI [] ":8383" 0 0 0 0])
        [("authorizer", recordingService "authorizer" ["authorizer"])]
      ≠ none :=
  ⟨⟨"foo", by decide, fun h => absurd ((validKey_iff _ _).2 h) (by decide)⟩,
   (C6_unadvertised_name_rejected
      { Services := [("authorizer", 0), ("foo", 1)], DirectoryResolverAddress := "" }
      (heapOf [mkAPI [] ":8282" 0 0 0 0, mkAPI [] ":8383" 0 0 0 0])
      [("authorizer", recordingService "authorizer" ["authorizer"])]).1
      ⟨"foo", by decide, fun h => absurd ((validKey_iff _ _).2 h) (by decide)⟩⟩

/-! ## Keys and entries of a Go map -/

theorem GoMap.keys_set {β : Type} (m : GoMap β) (k : String) (v : β) :
    GoMap.keys (GoMap.set m k v)
      = if k ∈ GoMap.keys m then GoMap.keys m else GoMap.keys m ++ [k] := by
  induction m with
  | nil => simp [GoMap.set, GoMap.keys]
  | cons e rest ih =>
    obtain ⟨k1, v1⟩ := e
    by_cases h1 : k1 = k
    · subst h1
      simp [GoMap.set, GoMap.keys]
    · have h2 : ¬ k = k1 := fun e => h1 e.symm
      have ih2 : List.map Prod.fst (GoMap.set rest k v)
          = if k ∈ List.map Prod.fst rest then List.map Prod.fst rest
            else List.map Prod.fst rest ++ [k] := ih
      simp only [GoMap.set, GoMap.keys, if_neg h1, List.map_cons, List.mem_cons, h2,
        false_or, ih2]
      split_ifs <;> simp

theorem GoMap.mem_keys_iff_lookup {β : Type} (m : GoMap β) (k : String) :
    k ∈ GoMap.keys m ↔ (GoMap.lookup m k).isSome = true := by
  induction m with
  | nil => simp [GoMap.keys, GoMap.lookup]
  | cons e rest ih =>
    obtain ⟨k1, v1⟩ := e
    have ih2 : k ∈ List.map Prod.fst rest ↔ (GoMap.lookup rest k).isSome = true := ih
    by_cases h1 : k1 = k
    · subst h1
      simp [GoMap.keys, GoMap.lookup]
    · have h2 : ¬ k = k1 := fun e => h1 e.symm
      simp only [GoMap.keys, GoMap.lookup, List.map_cons, List.mem_cons, h2, false_or,
        if_neg h1, ih2]

theorem GoMap.nodup_keys_set {β : Type} (m : GoMap β) (k : String) (v : β)
    (h : (GoMap.keys m).Nodup) : (GoMap.keys (GoMap.set m k v)).Nodup := by
  rw [GoMap.keys_set]
  split_ifs with hk
  · exact h
  · rw [List.nodup_append]
    refine ⟨h, List.nodup_singleton _, ?_⟩
    intro a ha hb
    rw [List.mem_singleton] at hb
    subst hb
    exact hk ha

theorem GoMap.length_set_le {β : Type} (m : GoMap β) (k : String) (v : β) :
    (GoMap.set m k v).length ≤ m.length + 1 := by
  have h : (GoMap.keys (GoMap.set m k v)).length ≤ (GoMap.keys m).length + 1 := by
    rw [GoMap.keys_set]
    split_ifs <;> simp
  simpa [GoMap.keys] using h

theorem GoMap.mem_iff_lookup {β : Type} (m : GoMap β) (h : (GoMap.keys m).Nodup)
    (k : String) (v : β) : (k, v) ∈ m ↔ GoMap.lookup m k = some v := by
  induction m with
  | nil => simp [GoMap.lookup]
  | cons e rest ih =>
    obtain ⟨k1, v1⟩ := e
    have hn : k1 ∉ GoMap.keys rest ∧ (GoMap.keys rest).Nodup := by
      simpa [GoMap.keys] using h
    by_cases h1 : k1 = k
    · subst h1
      have hnot : (k1, v) ∉ rest := by
        intro hm
        exact hn.1 (List.mem_map.2 ⟨(k1, v), hm, rfl⟩)
      simp only [List.mem_cons, Prod.mk.injEq, true_and, GoMap.lookup, if_true,
        Option.some.injEq, hnot, or_false]
      exact eq_comm
    · have h2 : ¬ k = k1 := fun e => h1 e.symm
      simp only [List.mem_cons, Prod.mk.injEq, h2, false_and, false_or, GoMap.lookup,
        if_neg h1]
      exact ih hn.2

/-! ## `mapToGRPCPorts`: the groups -/

theorem setDefaultGatewayTimeouts_GRPC (a : API) :
    (setDefaultGatewayTimeouts a).GRPC = a.GRPC := by
  unfold setDefaultGatewayTimeouts
  simp only
  split_ifs <;> rfl

theorem setDefaultGatewayTimeouts_Needs (a : API) :
    (setDefaultGatewayTimeouts a).Needs = a.Needs := by
  unfold setDefaultGatewayTimeouts
  simp only
  split_ifs <;> rfl

theorem mapToGRPCPortsStep_GRPC (st : PortState) (entry : String × Ptr) (p : Ptr) :
    ((mapToGRPCPortsStep st entry).heap p).GRPC = (st.heap p).GRPC := by
  unfold mapToGRPCPortsStep Heap.update
  simp only
  split_ifs with h
  · rw [setDefaultGatewayTimeouts_GRPC, h]
  · rfl

theorem mapToGRPCPortsStep_groupNames (st : PortState) (entry : String × Ptr) (a : String) :
    groupNames (mapToGRPCPortsStep st entry).portMap a
      = groupNames st.portMap a
          ++ (if (st.heap entry.2).GRPC.ListenAddress = a then [entry.1] else []) := by
  unfold mapToGRPCPortsStep groupNames
  simp only
  rw [GoMap.lookup_set]
  by_cases h : a = (st.heap entry.2).GRPC.ListenAddress
  · subst h
    cases GoMap.lookup st.portMap (st.heap entry.2).GRPC.ListenAddress <;> simp
  · have h2 : ¬ (st.heap entry.2).GRPC.ListenAddress = a := fun e => h e.symm
    simp [h, h2]

theorem mapToGRPCPortsStep_keys (st : PortState) (entry : String × Ptr) :
    GoMap.keys (mapToGRPCPortsStep st entry).portMap
      = if (st.heap entry.2).GRPC.ListenAddress ∈ GoMap.keys st.portMap then
          GoMap.keys st.portMap
        else GoMap.keys st.portMap ++ [(st.heap entry.2).GRPC.ListenAddress] := by
  unfold mapToGRPCPortsStep
  simp only
  rw [GoMap.keys_set]

theorem mapToGRPCPorts_fold_GRPC (l : GoMap Ptr) (st : PortState) (p : Ptr) :
    ((l.foldl mapToGRPCPortsStep st).heap p).GRPC = (st.heap p).GRPC := by
  induction l generalizing st with
  | nil => rfl
  | cons e rest ih =>
    rw [List.foldl_cons, ih, mapToGRPCPortsStep_GRPC]

theorem mapToGRPCPorts_fold_groupNames (heap0 : Heap) (l : GoMap Ptr) (st : PortState)
    (hst : ∀ p, (st.heap p).GRPC = (heap0 p).GRPC) (a : String) :
    groupNames (l.foldl mapToGRPCPortsStep st).portMap a
      = groupNames st.portMap a
          ++ (l.filter (fun e => decide ((heap0 e.2).GRPC.ListenAddress = a))).map Prod.fst := by
  induction l generalizing st with
  | nil => simp
  | cons e rest ih =>
    have hst2 : ∀ p, ((mapToGRPCPortsStep st e).heap p).GRPC = (heap0 p).GRPC := by
      intro p
      rw [mapToGRPCPortsStep_GRPC, hst]
    rw [List.foldl_cons, ih _ hst2, mapToGRPCPortsStep_groupNames, hst e.2]
    by_cases h : (heap0 e.2).GRPC.ListenAddress = a
    · simp [h, List.filter_cons]
    · simp [h, List.filter_cons]

theorem mapToGRPCPorts_fold_nodup (l : GoMap Ptr) (st : PortState)
    (h : (GoMap.keys st.portMap).Nodup) :
    (GoMap.keys (l.foldl mapToGRPCPortsStep st).portMap).Nodup := by
  induction l generalizing st with
  | nil => exact h
  | cons e rest ih =>
    rw [List.foldl_cons]
    apply ih
    exact GoMap.nodup_keys_set _ _ _ h

theorem mapToGRPCPorts_fold_mem_keys (heap0 : Heap) (l : GoMap Ptr) (st : PortState)
    (hst : ∀ p, (st.heap p).GRPC = (heap0 p).GRPC) (a : String) :
    a ∈ GoMap.keys (l.foldl mapToGRPCPortsStep st).portMap
      ↔ a ∈ GoMap.keys st.portMap ∨ ∃ e, e ∈ l ∧ (heap0 e.2).GRPC.ListenAddress = a := by
  induction l generalizing st with
  | nil => simp
  | cons e rest ih =>
    have hst2 : ∀ p, ((mapToGRPCPortsStep st e).heap p).GRPC = (heap0 p).GRPC := by
      intro p
      rw [mapToGRPCPortsStep_GRPC, hst]
    rw [List.foldl_cons, ih _ hst2, mapToGRPCPortsStep_keys, hst e.2]
    constructor
    · rintro (h | ⟨x, hx, hxa⟩)
      · split_ifs at h with hk
        · exact Or.inl h
        · rcases List.mem_append.1 h with h | h
          · exact Or.inl h
          · exact Or.inr ⟨e, List.mem_cons_self _ _, (List.mem_singleton.1 h).symm⟩
      · exact Or.inr ⟨x, List.mem_cons_of_mem _ hx, hxa⟩
    · rintro (h | ⟨x, hx, hxa⟩)
      · left
        split_ifs
        · exact h
        · exact List.mem_append_left _ h
      · rcases List.mem_cons.1 hx with rfl | hx
        · left
          split_ifs with hk
          · rw [← hxa]; exact hk
          · rw [← hxa]; exact List.mem_append_right _ (List.mem_singleton_self _)
        · exact Or.inr ⟨x, hx, hxa⟩

theorem mapToGRPCPorts_fold_length (l : GoMap Ptr) (st : PortState) :
    (l.foldl mapToGRPCPortsStep st).portMap.length ≤ st.portMap.length + l.length := by
  induction l generalizing st with
  | nil => simp
  | cons e rest ih =>
    rw [List.foldl_cons]
    have h1 := ih (mapToGRPCPortsStep st e)
    have h2 : (mapToGRPCPortsStep st e).portMap.length ≤ st.portMap.length + 1 :=
      GoMap.length_set_le _ _ _
    simp only [List.length_cons]
    omega

theorem mapToGRPCPorts_nodup (api : GoMap Ptr) (heap : Heap) :
    (GoMap.keys (mapToGRPCPorts api heap).portMap).Nodup :=
  mapToGRPCPorts_fold_nodup api _ List.nodup_nil

theorem mapToGRPCPorts_mem_keys (api : GoMap Ptr) (heap : Heap) (a : String) :
    a ∈ GoMap.keys (mapToGRPCPorts api heap).portMap
      ↔ ∃ e, e ∈ api ∧ (heap e.2).GRPC.ListenAddress = a := by
  unfold mapToGRPCPorts
  rw [mapToGRPCPorts_fold_mem_keys heap api _ (fun _ => rfl)]
  simp [GoMap.keys]

theorem mapToGRPCPorts_groupNames (api : GoMap Ptr) (heap : Heap) (a : String) :
    groupNames (mapToGRPCPorts api heap).portMap a
      = (api.filter (fun e => decide ((heap e.2).GRPC.ListenAddress = a))).map Prod.fst := by
  unfold mapToGRPCPorts
  rw [mapToGRPCPorts_fold_groupNames heap api _ (fun _ => rfl)]
  simp [groupNames, GoMap.lookup]

theorem mapToGRPCPorts_names_of_mem (api : GoMap Ptr) (heap : Heap) (k : String)
    (g : services) (hg : (k, g) ∈ (mapToGRPCPorts api heap).portMap) :
    g.registeredServices
      = (api.filter (fun e => decide ((heap e.2).GRPC.ListenAddress = k))).map Prod.fst := by
  rw [← mapToGRPCPorts_groupNames]
  have hl := (GoMap.mem_iff_lookup _ (mapToGRPCPorts_nodup api heap) k g).1 hg
  unfold groupNames
  rw [hl]

theorem mapToGRPCPorts_group_exists (api : GoMap Ptr) (heap : Heap) (e : String × Ptr)
    (he : e ∈ api) :
    ∃ g, (((heap e.2).GRPC.ListenAddress, g) ∈ (mapToGRPCPorts api heap).portMap) ∧
      ∀ g2, ((heap e.2).GRPC.ListenAddress, g2) ∈ (mapToGRPCPorts api heap).portMap →
        g2 = g := by
  have hk : (heap e.2).GRPC.ListenAddress ∈ GoMap.keys (mapToGRPCPorts api heap).portMap :=
    (mapToGRPCPorts_mem_keys api heap _).2 ⟨e, he, rfl⟩
  rw [GoMap.mem_keys_iff_lookup] at hk
  obtain ⟨g, hg⟩ := Option.isSome_iff_exists.1 hk
  refine ⟨g, (GoMap.mem_iff_lookup _ (mapToGRPCPorts_nodup api heap) _ g).2 hg, ?_⟩
  intro g2 hg2
  have h2 := (GoMap.mem_iff_lookup _ (mapToGRPCPorts_nodup api heap) _ g2).1 hg2
  rw [hg] at h2
  exact (Option.some.inj h2).symm

theorem GoMap.value_unique {β : Type} (m : GoMap β) (h : (GoMap.keys m).Nodup)
    (k : String) (v w : β) (hv : (k, v) ∈ m) (hw : (k, w) ∈ m) : v = w := by
  have h1 := (GoMap.mem_iff_lookup m h k v).1 hv
  have h2 := (GoMap.mem_iff_lookup m h k w).1 hw
  rw [h1] at h2
  exact Option.some.inj h2

theorem nodup_filter_keys (api : GoMap Ptr) (h : (GoMap.keys api).Nodup)
    (q : String × Ptr → Bool) : ((api.filter q).map Prod.fst).Nodup :=
  List.Nodup.sublist (List.Sublist.map Prod.fst (List.filter_sublist api)) h

/-! ## C7: the name lists partition the configured names by endpoint -/

/-- C7: for a service configuration map (its keys pairwise distinct),
`mapToGRPCPorts` puts every configured service name exactly once in the name
list of the one group keyed by the listen address of that service, and in the
name list of no other group; and every name in the list of a group is a
configured service whose listen address is the key of the group. -/
theorem C7_names_partitioned_by_endpoint (api : GoMap Ptr) (heap : Heap)
    (hkeys : (GoMap.keys api).Nodup) :
    (∀ name config, (name, config) ∈ api →
      (∃ g, ((heap config).GRPC.ListenAddress, g) ∈ (mapToGRPCPorts api heap).portMap ∧
        (∀ g2, ((heap config).GRPC.ListenAddress, g2) ∈ (mapToGRPCPorts api heap).portMap →
          g2 = g) ∧
        g.registeredServices.count name = 1) ∧
      (∀ k g, (k, g) ∈ (mapToGRPCPorts api heap).portMap →
        k ≠ (heap config).GRPC.ListenAddress → name ∉ g.registeredServices)) ∧
    (∀ k g, (k, g) ∈ (mapToGRPCPorts api heap).portMap →
      ∀ name, name ∈ g.registeredServices →
        ∃ config, (name, config) ∈ api ∧ (heap config).GRPC.ListenAddress = k) := by
  have hconv : ∀ k g, (k, g) ∈ (mapToGRPCPorts api heap).portMap →
      ∀ name, name ∈ g.registeredServices →
        ∃ config, (name, config) ∈ api ∧ (heap config).GRPC.ListenAddress = k := by
    intro k g hg name hname
    rw [mapToGRPCPorts_names_of_mem api heap k g hg, List.mem_map] at hname
    obtain ⟨e, he, hen⟩ := hname
    rw [List.mem_filter] at he
    refine ⟨e.2, ?_, by simpa using he.2⟩
    rw [← hen]
    exact he.1
  refine ⟨?_, hconv⟩
  intro name config hmem
  constructor
  · obtain ⟨g, hg, huniq⟩ := mapToGRPCPorts_group_exists api heap (name, config) hmem
    refine ⟨g, hg, huniq, ?_⟩
    have hnames := mapToGRPCPorts_names_of_mem api heap _ g hg
    apply List.count_eq_one_of_mem
    · rw [hnames]
      exact nodup_filter_keys api hkeys _
    · rw [hnames, List.mem_map]
      exact ⟨(name, config), List.mem_filter.2 ⟨hmem, by simp⟩, rfl⟩
  · intro k g hg hne hname
    obtain ⟨config2, hmem2, haddr⟩ := hconv k g hg name hname
    have : config = config2 := GoMap.value_unique api hkeys name config config2 hmem hmem2
    subst this
    exact hne haddr.symm

/-- Witness of C7: "authorizer" on ":8282", "reader" and "writer" on ":9292";
the name "reader" is once in the list of the group of ":9292" and in no other
list. -/
theorem C7_names_partitioned_by_endpoint_witness :
    (GoMap.keys [("authorizer", 0), ("reader", 1), ("writer", 2)]).Nodup ∧
    ((∃ g, (":9292", g) ∈
          (mapToGRPCPorts [("authorizer", 0), ("reader", 1), ("writer", 2)]
            (heapOf [mkAPI [] ":8282" 0 0 0 0, mkAPI [] ":9292" 0 0 0 0,
                     mkAPI [] ":9292" 0 0 0 0])).portMap ∧
        (∀ g2, (":9292", g2) ∈
          (mapToGRPCPorts [("authorizer", 0), ("reader", 1), ("writer", 2)]
            (heapOf [mkAPI [] ":8282" 0 0 0 0, mkAPI [] ":9292" 0 0 0 0,
                     mkAPI [] ":9292" 0 0 0 0])).portMap → g2 = g) ∧
        g.registeredServices.count "reader" = 1) ∧
      (∀ k g, (k, g) ∈
          (mapToGRPCPorts [("authorizer", 0), ("reader", 1), ("writer", 2)]
            (heapOf [mkAPI [] ":8282" 0 0 0 0, mkAPI [] ":9292" 0 0 0 0,
                     mkAPI [] ":9292" 0 0 0 0])).portMap →
        k ≠ ":9292" → "reader" ∉ g.registeredServices)) :=
  ⟨by decide,
   (C7_names_partitioned_by_endpoint [("authorizer", 0), ("reader", 1), ("writer", 2)]
      (heapOf [mkAPI [] ":8282" 0 0 0 0, mkAPI [] ":9292" 0 0 0 0,
               mkAPI [] ":9292" 0 0 0 0]) (by decide)).1 "reader" 1 (by decide)⟩

/-! ## C8: the groups and the listen addresses -/

/-- C8: `mapToGRPCPorts` returns at most as many groups as there are service
definitions; no two groups have the same key; the keys of the groups are
exactly the listen addresses of the service definitions; so the listen address
of every service definition is the key of exactly one group. -/
theorem C8_groups_bounded_and_keyed_by_address (api : GoMap Ptr) (heap : Heap) :
    (mapToGRPCPorts api heap).portMap.length ≤ api.length ∧
    (GoMap.keys (mapToGRPCPorts api heap).portMap).Nodup ∧
    (∀ a, a ∈ GoMap.keys (mapToGRPCPorts api heap).portMap
      ↔ ∃ e, e ∈ api ∧ (heap e.2).GRPC.ListenAddress = a) ∧
    (∀ e, e ∈ api →
      (GoMap.keys (mapToGRPCPorts api heap).portMap).count
        (heap e.2).GRPC.ListenAddress = 1) := by
  refine ⟨?_, mapToGRPCPorts_nodup api heap, mapToGRPCPorts_mem_keys api heap, ?_⟩
  · have h := mapToGRPCPorts_fold_length api { portMap := [], heap := heap }
    simpa [mapToGRPCPorts] using h
  · intro e he
    exact List.count_eq_one_of_mem (mapToGRPCPorts_nodup api heap)
      ((mapToGRPCPorts_mem_keys api heap _).2 ⟨e, he, rfl⟩)

/-- Witness of C8: "authorizer" on ":8282", "reader" and "writer" on ":9292":
at most three groups, and ":9292" is the key of exactly one of them. -/
theorem C8_groups_bounded_and_keyed_by_address_witness :
    (mapToGRPCPorts [("authorizer", 0), ("reader", 1), ("writer", 2)]
        (heapOf [mkAPI [] ":8282" 0 0 0 0, mkAPI [] ":9292" 0 0 0 0,
                 mkAPI [] ":9292" 0 0 0 0])).portMap.length ≤ 3 ∧
    (GoMap.keys
        (mapToGRPCPorts [("authorizer", 0), ("reader", 1), ("writer", 2)]
          (heapOf [mkAPI [] ":8282" 0 0 0 0, mkAPI [] ":9292" 0 0 0 0,
                   mkAPI [] ":9292" 0 0 0 0])).portMap).count ":9292" = 1 :=
  ⟨(C8_groups_bounded_and_keyed_by_address [("authorizer", 0), ("reader", 1), ("writer", 2)]
      (heapOf [mkAPI [] ":8282" 0 0 0 0, mkAPI [] ":9292" 0 0 0 0,
               mkAPI [] ":9292" 0 0 0 0])).1,
   (C8_groups_bounded_and_keyed_by_address [("authorizer", 0), ("reader", 1), ("writer", 2)]
      (heapOf [mkAPI [] ":8282" 0 0 0 0, mkAPI [] ":9292" 0 0 0 0,
               mkAPI [] ":9292" 0 0 0 0])).2.2.2 ("reader", 1) (by decide)⟩

/-! ## C9: one contribution per matching service -/

/-- C9: for every group and registry, the composer loop collects from the
registered service at each position of the registry its GRPC registration, its
gateway registration and its cleanups exactly once if the service advertises at
least one name of the group, and nothing otherwise, whatever the number of its
advertised names that match: the slices are those collected from the services
before it, then this contribution, then those collected from the services after
it. Over the whole registry the slices are the registrations of the advertising
services, in registry order. -/
theorem C9_one_contribution_per_matching_service {G H C : Type}
    (registeredServices : List String) (pre post : GoMap (ServiceTypes G H C))
    (entry : String × ServiceTypes G H C) :
    composerLoop registeredServices (pre ++ entry :: post)
      = Collected.append (composerLoop registeredServices pre)
          (Collected.append
            (if advertisesOneOf registeredServices entry.2 then
              contribution registeredServices entry.2
             else Collected.empty)
            (composerLoop registeredServices post)) ∧
    composerLoop registeredServices (pre ++ entry :: post)
      = { grpcs :=
            ((pre ++ entry :: post).filter
              (fun e => decide (advertisesOneOf registeredServices e.2))).map
              (fun e => e.2.GetGRPCRegistrations registeredServices),
          gateways :=
            ((pre ++ entry :: post).filter
              (fun e => decide (advertisesOneOf registeredServices e.2))).map
              (fun e => e.2.GetGatewayRegistration registeredServices),
          cleanups :=
            ((pre ++ entry :: post).filter
              (fun e => decide (advertisesOneOf registeredServices e.2))).flatMap
              (fun e => e.2.Cleanups) } :=
  ⟨composerLoop_split registeredServices pre post entry,
   composerLoop_eq_filter registeredServices (pre ++ entry :: post)⟩

/-- Witness of C9: the service "edge" advertises "reader" and "writer", both in
the name list of the group, and "authorizer" advertises no name of the group:
one GRPC registration is collected, that of "edge", and invoking it records
"edge" once. -/
theorem C9_one_contribution_per_matching_service_witness :
    (composerLoop ["reader", "writer"]
        ([("authorizer", recordingService "authorizer" ["authorizer"])] ++
          ("edge", recordingService "edge" ["reader", "writer"]) :: [])).grpcs.length = 1 ∧
    composedGRPC
        (composerLoop ["reader", "writer"]
          ([("authorizer", recordingService "authorizer" ["authorizer"])] ++
            ("edge", recordingService "edge" ["reader", "writer"]) :: [])).grpcs []
      = ["edge"] :=
  ⟨(congrArg (fun c => c.grpcs.length)
      (C9_one_contribution_per_matching_service ["reader", "writer"]
        [("authorizer", recordingService "authorizer" ["authorizer"])] []
        ("edge", recordingService "edge" ["reader", "writer"])).1).trans (by decide),
   (congrArg (fun c => composedGRPC c.grpcs [])
      (C9_one_contribution_per_matching_service ["reader", "writer"]
        [("authorizer", recordingService "authorizer" ["authorizer"])] []
        ("edge", recordingService "edge" ["reader", "writer"])).1).trans (by decide)⟩

/-! ## C10: the composed gateway closure -/

theorem outcomeAt_zero {ρ μ ε : Type} (f : HandlerRegistrations ρ μ ε)
    (rest : List (HandlerRegistrations ρ μ ε)) (args : ρ) (mux : μ) :
    outcomeAt (f :: rest) args mux 0 = some (f args mux).2 := by
  simp [outcomeAt, invokeAll]

theorem outcomeAt_succ {ρ μ ε : Type} (f : HandlerRegistrations ρ μ ε)
    (rest : List (HandlerRegistrations ρ μ ε)) (args : ρ) (mux : μ) (i : Nat) :
    outcomeAt (f :: rest) args mux (i + 1) = outcomeAt rest args (f args mux).1 i := by
  simp [outcomeAt, invokeAll]

theorem invokeAll_cons {ρ μ ε : Type} (f : HandlerRegistrations ρ μ ε)
    (rest : List (HandlerRegistrations ρ μ ε)) (args : ρ) (mux : μ) :
    invokeAll (f :: rest) args mux = invokeAll rest args (f args mux).1 := rfl

theorem composedGateway_cons_ok {ρ μ ε : Type} (f : HandlerRegistrations ρ μ ε)
    (rest : List (HandlerRegistrations ρ μ ε)) (args : ρ) (mux : μ)
    (h : (f args mux).2 = none) :
    composedGateway (f :: rest) args mux = composedGateway rest args (f args mux).1 := by
  rcases hf : f args mux with ⟨m1, r⟩
  rw [hf] at h
  simp only at h
  subst h
  simp [composedGateway, hf]

theorem composedGateway_cons_err {ρ μ ε : Type} (f : HandlerRegistrations ρ μ ε)
    (rest : List (HandlerRegistrations ρ μ ε)) (args : ρ) (mux : μ) (err : ε)
    (h : (f args mux).2 = some err) :
    composedGateway (f :: rest) args mux = ((f args mux).1, some err) := by
  rcases hf : f args mux with ⟨m1, r⟩
  rw [hf] at h
  simp only at h
  subst h
  simp [composedGateway, hf]

theorem composedGateway_all_ok {ρ μ ε : Type} (gateways : List (HandlerRegistrations ρ μ ε))
    (args : ρ) (mux : μ)
    (h : ∀ i, i < gateways.length → outcomeAt gateways args mux i = some none) :
    composedGateway gateways args mux = (invokeAll gateways args mux, none) := by
  induction gateways generalizing mux with
  | nil => rfl
  | cons f rest ih =>
    have h0 : (f args mux).2 = none := by
      have := h 0 (by simp)
      rw [outcomeAt_zero] at this
      exact Option.some.inj this
    rw [composedGateway_cons_ok f rest args mux h0, invokeAll_cons]
    apply ih
    intro i hi
    have := h (i + 1) (by simpa using hi)
    rw [outcomeAt_succ] at this
    exact this

theorem composedGateway_first_error {ρ μ ε : Type}
    (gateways : List (HandlerRegistrations ρ μ ε)) (args : ρ) (mux : μ) (i : Nat) (err : ε)
    (hbefore : ∀ j, j < i → outcomeAt gateways args mux j = some none)
    (hat : outcomeAt gateways args mux i = some (some err)) :
    composedGateway gateways args mux
      = (invokeAll (gateways.take (i + 1)) args mux, some err) := by
  induction gateways generalizing mux i with
  | nil => simp [outcomeAt] at hat
  | cons f rest ih =>
    cases i with
    | zero =>
      rw [outcomeAt_zero] at hat
      rw [composedGateway_cons_err f rest args mux err (Option.some.inj hat)]
      simp [invokeAll]
    | succ i =>
      have h0 : (f args mux).2 = none := by
        have := hbefore 0 (by omega)
        rw [outcomeAt_zero] at this
        exact Option.some.inj this
      rw [composedGateway_cons_ok f rest args mux h0, List.take_succ_cons, invokeAll_cons]
      apply ih
      · intro j hj
        have := hbefore (j + 1) (by omega)
        rw [outcomeAt_succ] at this
        exact this
      · rw [outcomeAt_succ] at hat
        exact hat

theorem composedGateway_error_position {ρ μ ε : Type}
    (gateways : List (HandlerRegistrations ρ μ ε)) (args : ρ) (mux : μ) (err : ε)
    (h : (composedGateway gateways args mux).2 = some err) :
    ∃ i, i < gateways.length ∧
      (∀ j, j < i → outcomeAt gateways args mux j = some none) ∧
      outcomeAt gateways args mux i = some (some err) := by
  induction gateways generalizing mux with
  | nil => simp [composedGateway] at h
  | cons f rest ih =>
    cases hf : (f args mux).2 with
    | some e =>
      rw [composedGateway_cons_err f rest args mux e hf] at h
      simp only [Option.some.injEq] at h
      subst h
      refine ⟨0, by simp, fun j hj => absurd hj (by omega), ?_⟩
      rw [outcomeAt_zero, hf]
    | none =>
      rw [composedGateway_cons_ok f rest args mux hf] at h
      obtain ⟨i, hi, hbefore, hat⟩ := ih _ h
      refine ⟨i + 1, by simpa using hi, ?_, ?_⟩
      · intro j hj
        cases j with
        | zero => rw [outcomeAt_zero, hf]
        | succ j =>
          rw [outcomeAt_succ]
          exact hbefore j (by omega)
      · rw [outcomeAt_succ]
        exact hat

theorem composedGateway_none_all_ok {ρ μ ε : Type}
    (gateways : List (HandlerRegistrations ρ μ ε)) (args : ρ) (mux : μ)
    (h : (composedGateway gateways args mux).2 = none) :
    ∀ i, i < gateways.length → outcomeAt gateways args mux i = some none := by
  induction gateways generalizing mux with
  | nil => intro i hi; simp at hi
  | cons f rest ih =>
    cases hf : (f args mux).2 with
    | some e =>
      rw [composedGateway_cons_err f rest args mux e hf] at h
      cases h
    | none =>
      rw [composedGateway_cons_ok f rest args mux hf] at h
      intro i hi
      cases i with
      | zero => rw [outcomeAt_zero, hf]
      | succ i =>
        rw [outcomeAt_succ]
        exact ih _ h i (by simpa using hi)

/-- C10: the composed gateway closure invokes the collected registrations in
collection order. If the registration at position `i` is the first that
returns an error, the closure returns exactly that error, and the multiplexer
is the one left by the registrations up to and including position `i`: nothing
after it is invoked and nothing before it is undone. The closure returns nil
exactly when every registration succeeds, and then all have been invoked; and
an error it returns is the error of the first registration that fails. -/
theorem C10_gateway_closure_first_error {ρ μ ε : Type}
    (gateways : List (HandlerRegistrations ρ μ ε)) (args : ρ) (mux : μ) :
    (∀ i err, (∀ j, j < i → outcomeAt gateways args mux j = some none) →
      outcomeAt gateways args mux i = some (some err) →
      composedGateway gateways args mux
        = (invokeAll (gateways.take (i + 1)) args mux, some err)) ∧
    ((composedGateway gateways args mux).2 = none ↔
      ∀ i, i < gateways.length → outcomeAt gateways args mux i = some none) ∧
    ((∀ i, i < gateways.length → outcomeAt gateways args mux i = some none) →
      composedGateway gateways args mux = (invokeAll gateways args mux, none)) ∧
    (∀ err, (composedGateway gateways args mux).2 = some err →
      ∃ i, i < gateways.length ∧
        (∀ j, j < i → outcomeAt gateways args mux j = some none) ∧
        outcomeAt gateways args mux i = some (some err)) := by
  refine ⟨fun i err hb ha => composedGateway_first_error gateways args mux i err hb ha,
    ⟨composedGateway_none_all_ok gateways args mux, ?_⟩,
    composedGateway_all_ok gateways args mux,
    fun err h => composedGateway_error_position gateways args mux err h⟩
  intro hall
  rw [composedGateway_all_ok gateways args mux hall]

/-- Witness of C10: three registrations, the second of which fails with
"boom": the closure returns "boom", the multiplexer has the records of the
first two and not of the third. -/
theorem C10_gateway_closure_first_error_witness :
    ((∀ j, j < 1 →
        outcomeAt [recordingGateway "a", failingGateway "b" "boom", recordingGateway "c"]
          () [] j = some none) ∧
      outcomeAt [recordingGateway "a", failingGateway "b" "boom", recordingGateway "c"]
        () [] 1 = some (some "boom")) ∧
    composedGateway [recordingGateway "a", failingGateway "b" "boom", recordingGateway "c"]
        () []
      = (invokeAll
          ([recordingGateway "a", failingGateway "b" "boom", recordingGateway "c"].take
            (1 + 1)) () [],
         some "boom") :=
  ⟨⟨by decide, by decide⟩,
   (C10_gateway_closure_first_error
      [recordingGateway "a", failingGateway "b" "boom", recordingGateway "c"] () []).1
      1 "boom" (by decide) (by decide)⟩

/-! ## C11: the decision-log selector -/

theorem returned_error {ω ε L : Type} (r : ω × (Option L × Option ε)) (err : ε)
    (h : r.2.2 = some err) : returned r = (r.1, (none, some err)) := by
  obtain ⟨w1, l, e⟩ := r
  simp only at h
  subst h
  rfl

theorem returned_ok {ω ε L : Type} (r : ω × (Option L × Option ε))
    (h : r.2.2 = none) : returned r = r := by
  obtain ⟨w1, l, e⟩ := r
  simp only at h
  subst h
  rfl

theorem GetDecisionLogger_self {ω ε L : Type} (b : LoggerBackends ω ε L)
    (cfg : DecisionLogConfig) (w : ω) (h : cfg.Type_ = "self") :
    GetDecisionLogger b cfg w = returned (b.selfNew cfg.Config w) := by
  unfold GetDecisionLogger returned
  rw [if_pos h]

theorem GetDecisionLogger_file {ω ε L : Type} (b : LoggerBackends ω ε L)
    (cfg : DecisionLogConfig) (w : ω) (h : cfg.Type_ = "file") :
    GetDecisionLogger b cfg w
      = returned (b.fileNew
          { LogFilePath := sprintV (GoMap.lookup cfg.Config "log_file_path"),
            MaxFileSizeMB := assertInt (GoMap.lookup cfg.Config "max_file_size_mb"),
            MaxFileCount := assertInt (GoMap.lookup cfg.Config "max_file_count") } w) := by
  have hs : ¬ cfg.Type_ = "self" := by
    rw [h]
    decide
  unfold GetDecisionLogger returned
  rw [if_neg hs, if_pos h]

theorem GetDecisionLogger_default {ω ε L : Type} (b : LoggerBackends ω ε L)
    (cfg : DecisionLogConfig) (w : ω) (hs : cfg.Type_ ≠ "self") (hf : cfg.Type_ ≠ "file") :
    GetDecisionLogger b cfg w = returned (b.nopNew w) := by
  unfold GetDecisionLogger returned
  rw [if_neg hs, if_neg hf]

/-- C11: `GetDecisionLogger` chooses the backend by `cfg.Type` alone: "self"
calls `self.New`, "file" calls `file.New`, every other value (the empty one
included) calls `nop.New`; the world it leaves and the result it returns are
those of that one call, so no other constructor is invoked; and when the
constructor returns an error, `GetDecisionLogger` returns that error with a nil
logger. -/
theorem C11_backend_selected_by_type {ω ε L : Type} (b : LoggerBackends ω ε L)
    (cfg : DecisionLogConfig) (w : ω) :
    (cfg.Type_ = "self" →
      GetDecisionLogger b cfg w = returned (b.selfNew cfg.Config w)) ∧
    (cfg.Type_ = "file" →
      ∃ fc, GetDecisionLogger b cfg w = returned (b.fileNew fc w)) ∧
    (cfg.Type_ ≠ "self" → cfg.Type_ ≠ "file" →
      GetDecisionLogger b cfg w = returned (b.nopNew w)) ∧
    (∀ r : ω × (Option L × Option ε), ∀ err, r.2.2 = some err →
      returned r = (r.1, (none, some err))) ∧
    (∀ r : ω × (Option L × Option ε), r.2.2 = none → returned r = r) :=
  ⟨GetDecisionLogger_self b cfg w,
   fun h => ⟨_, GetDecisionLogger_file b cfg w h⟩,
   GetDecisionLogger_default b cfg w,
   returned_error, returned_ok⟩

/-- Witness of C11: with the recording backends, the absent (empty) type calls
`nop.New` and nothing else, and the type "self", whose constructor fails with
"dial", gives a nil logger with that error after the one call of `self.New`. -/
theorem C11_backend_selected_by_type_witness :
    (("" : String) ≠ "self" ∧ ("" : String) ≠ "file") ∧
    GetDecisionLogger recordingBackends { Type_ := "", Config := [] } []
      = (["nop.New"], (some "nop", none)) ∧
    GetDecisionLogger recordingBackends { Type_ := "self", Config := [] } []
      = (["self.New"], (none, some "dial")) :=
  ⟨by decide,
   ((C11_backend_selected_by_type recordingBackends { Type_ := "", Config := [] } []).2.2.1
      (by decide) (by decide)).trans (by decide),
   ((C11_backend_selected_by_type recordingBackends { Type_ := "self", Config := [] } []).1
      (by decide)).trans (by decide)⟩

/-! ## C12: the file backend -/

/-- C12: with `cfg.Type` equal to "file", `GetDecisionLogger` calls `file.New`
with `LogFilePath` the configured string `log_file_path`, `MaxFileSizeMB` the
configured `int` `max_file_size_mb` and `MaxFileCount` the configured `int`
`max_file_count`, each of the two being 0 when its key is absent. -/
theorem C12_file_backend_config {ω ε L : Type} (b : LoggerBackends ω ε L)
    (cfg : DecisionLogConfig) (w : ω) (path : String) (size count : Int)
    (htype : cfg.Type_ = "file")
    (hpath : GoMap.lookup cfg.Config "log_file_path" = some (ConfigValue.string path))
    (hsize : GoMap.lookup cfg.Config "max_file_size_mb" = some (ConfigValue.int size) ∨
      (GoMap.lookup cfg.Config "max_file_size_mb" = none ∧ size = 0))
    (hcount : GoMap.lookup cfg.Config "max_file_count" = some (ConfigValue.int count) ∨
      (GoMap.lookup cfg.Config "max_file_count" = none ∧ count = 0)) :
    GetDecisionLogger b cfg w
      = returned (b.fileNew
          { LogFilePath := path, MaxFileSizeMB := size, MaxFileCount := count } w) := by
  rw [GetDecisionLogger_file b cfg w htype, hpath]
  have h1 : assertInt (GoMap.lookup cfg.Config "max_file_size_mb") = size := by
    rcases hsize with h | ⟨h, h0⟩
    · rw [h]; rfl
    · rw [h, h0]; rfl
  have h2 : assertInt (GoMap.lookup cfg.Config "max_file_count") = count := by
    rcases hcount with h | ⟨h, h0⟩
    · rw [h]; rfl
    · rw [h, h0]; rfl
  rw [h1, h2]
  rfl

/-- Witness of C12: `log_file_path` = "/tmp/d.log" and no size or count
override: the file backend is built with ("/tmp/d.log", 0, 0). -/
theorem C12_file_backend_config_witness :
    (GoMap.lookup [("log_file_path", ConfigValue.string "/tmp/d.log")] "log_file_path"
        = some (ConfigValue.string "/tmp/d.log") ∧
      GoMap.lookup [("log_file_path", ConfigValue.string "/tmp/d.log")] "max_file_size_mb"
        = none ∧
      GoMap.lookup [("log_file_path", ConfigValue.string "/tmp/d.log")] "max_file_count"
        = none) ∧
    GetDecisionLogger recordingBackends
        { Type_ := "file", Config := [("log_file_path", ConfigValue.string "/tmp/d.log")] } []
      = returned (recordingBackends.fileNew
          { LogFilePath := "/tmp/d.log", MaxFileSizeMB := 0, MaxFileCount := 0 } []) :=
  ⟨by decide,
   C12_file_backend_config recordingBackends
     { Type_ := "file", Config := [("log_file_path", ConfigValue.string "/tmp/d.log")] } []
     "/tmp/d.log" 0 0 rfl (by decide) (Or.inr ⟨by decide, rfl⟩) (Or.inr ⟨by decide, rfl⟩)⟩

/-! ## C13: health statuses after a successful start only -/

theorem StartHealthLoop_lookup (Services : GoMap Ptr) (hs : HealthServer) (name : String) :
    GoMap.lookup (StartHealthLoop Services hs) name
      = if name ∈ GoMap.keys Services then some ServingStatus.SERVING
        else GoMap.lookup hs name := by
  induction Services generalizing hs with
  | nil => simp [StartHealthLoop, GoMap.keys]
  | cons e rest ih =>
    have hstep : StartHealthLoop (e :: rest) hs
        = StartHealthLoop rest (HealthServer.SetServiceStatus hs e.1 ServingStatus.SERVING) :=
      rfl
    rw [hstep, ih]
    by_cases hr : name ∈ GoMap.keys rest
    · have : name ∈ GoMap.keys (e :: rest) := by
        simp only [GoMap.keys, List.map_cons, List.mem_cons]
        exact Or.inr hr
      rw [if_pos hr, if_pos this]
    · rw [if_neg hr]
      unfold HealthServer.SetServiceStatus
      rw [GoMap.lookup_set]
      by_cases he : name = e.1
      · have : name ∈ GoMap.keys (e :: rest) := by
          simp [GoMap.keys, he]
        rw [if_pos he, if_pos this]
      · have : name ∉ GoMap.keys (e :: rest) := by
          simp only [GoMap.keys, List.map_cons, List.mem_cons, not_or]
          exact ⟨he, hr⟩
        rw [if_neg he, if_neg this]

/-- C13: if `StartServers` returns an error, `Start` returns an error (the
wrapped one) and sets no health status: the manager, its health server
included, is as `StartServers` left it, so the health state is unchanged
whenever `StartServers` does not change it. If `StartServers` succeeds and a
health server is set up, `Start` returns nil and every configured service name
has the status `SERVING`. -/
theorem C13_health_after_successful_start {ε : Type}
    (StartServers : Manager → Manager × Option ε)
    (Services : GoMap Ptr) (heap : Heap) (m : Manager) :
    (∀ err, (StartServers (managerBeforeStartServers Services heap m)).2 = some err →
      (Start StartServers Services heap m).2
          = some { message := "failed to start engine server", cause := err } ∧
      (Start StartServers Services heap m).1
          = (StartServers (managerBeforeStartServers Services heap m)).1 ∧
      ((StartServers (managerBeforeStartServers Services heap m)).1.HealthServer
          = m.HealthServer →
        (Start StartServers Services heap m).1.HealthServer = m.HealthServer)) ∧
    ((StartServers (managerBeforeStartServers Services heap m)).2 = none →
      ∀ hs, (StartServers (managerBeforeStartServers Services heap m)).1.HealthServer
          = some hs →
        (Start StartServers Services heap m).2 = none ∧
        ∃ hs2, (Start StartServers Services heap m).1.HealthServer = some hs2 ∧
          ∀ name, name ∈ GoMap.keys Services →
            GoMap.lookup hs2 name = some ServingStatus.SERVING) := by
  constructor
  · intro err herr
    rcases hr : StartServers (managerBeforeStartServers Services heap m) with ⟨m2, r⟩
    rw [hr] at herr
    simp only at herr
    subst herr
    have hstart : Start StartServers Services heap m
        = (m2, some { message := "failed to start engine server", cause := err }) := by
      unfold Start
      unfold managerBeforeStartServers at hr
      simp only [hr]
    rw [hstart]
    exact ⟨rfl, rfl, fun h => h⟩
  · intro hok hs hhs
    rcases hr : StartServers (managerBeforeStartServers Services heap m) with ⟨m2, r⟩
    rw [hr] at hok hhs
    simp only at hok hhs
    subst hok
    have hstart : Start StartServers Services heap m
        = ({ m2 with HealthServer := some (StartHealthLoop Services hs) }, none) := by
      unfold Start
      unfold managerBeforeStartServers at hr
      simp only [hr, hhs]
    rw [hstart]
    refine ⟨rfl, StartHealthLoop Services hs, rfl, ?_⟩
    intro name hname
    rw [StartHealthLoop_lookup, if_pos hname]

/-! ## C14: names that refer to no configured service -/

theorem StartNeedsStep_unresolvable (Services : GoMap Ptr) (heap : Heap) (cfg : Ptr)
    (dm : GoMap (List String)) (name : String) (h : resolvable Services name = false) :
    StartNeedsStep Services heap cfg dm name = dm := by
  unfold resolvable at h
  unfold StartNeedsStep
  cases hl : GoMap.lookup Services name with
  | none => rfl
  | some d => rw [hl] at h; simp at h

theorem StartNeedsLoop_filter (Services : GoMap Ptr) (heap : Heap) (cfg : Ptr)
    (needs : List String) (dm : GoMap (List String)) :
    StartNeedsLoop Services heap cfg dm needs
      = StartNeedsLoop Services heap cfg dm (needs.filter (resolvable Services)) := by
  induction needs generalizing dm with
  | nil => rfl
  | cons n rest ih =>
    have hstep : StartNeedsLoop Services heap cfg dm (n :: rest)
        = StartNeedsLoop Services heap cfg (StartNeedsStep Services heap cfg dm n) rest := rfl
    cases hn : resolvable Services n with
    | true =>
      rw [hstep, ih, List.filter_cons_of_pos hn]
      rfl
    | false =>
      rw [hstep, StartNeedsStep_unresolvable Services heap cfg dm n hn, ih,
        List.filter_cons_of_neg (by simp [hn])]

theorem StartNeedsStep_congr (Services : GoMap Ptr) (heap heap2 : Heap)
    (hg : ∀ q, (heap2 q).GRPC = (heap q).GRPC) (cfg : Ptr) (dm : GoMap (List String))
    (name : String) :
    StartNeedsStep Services heap2 cfg dm name = StartNeedsStep Services heap cfg dm name := by
  unfold StartNeedsStep
  cases GoMap.lookup Services name with
  | none => rfl
  | some d => simp only [hg]

theorem StartNeedsLoop_congr (Services : GoMap Ptr) (heap heap2 : Heap)
    (hg : ∀ q, (heap2 q).GRPC = (heap q).GRPC) (cfg : Ptr) (needs : List String)
    (dm : GoMap (List String)) :
    StartNeedsLoop Services heap2 cfg dm needs = StartNeedsLoop Services heap cfg dm needs := by
  induction needs generalizing dm with
  | nil => rfl
  | cons n rest ih =>
    have h1 : StartNeedsLoop Services heap2 cfg dm (n :: rest)
        = StartNeedsLoop Services heap2 cfg (StartNeedsStep Services heap2 cfg dm n) rest := rfl
    have h2 : StartNeedsLoop Services heap cfg dm (n :: rest)
        = StartNeedsLoop Services heap cfg (StartNeedsStep Services heap cfg dm n) rest := rfl
    rw [h1, h2, StartNeedsStep_congr Services heap heap2 hg, ih]

theorem StartDependencyStep_eq_loop (Services : GoMap Ptr) (heap : Heap)
    (dm : GoMap (List String)) (entry : String × Ptr) :
    StartDependencyStep Services heap dm entry
      = StartNeedsLoop Services heap entry.2 dm (heap entry.2).Needs := by
  unfold StartDependencyStep
  split_ifs with h
  · rfl
  · have : (heap entry.2).Needs = [] := by
      cases hn : (heap entry.2).Needs with
      | nil => rfl
      | cons a l => rw [hn] at h; simp at h
    rw [this]
    rfl

theorem StartDependencyLoopFrom_congr (Services : GoMap Ptr) (heap heap2 : Heap)
    (hg : ∀ q, (heap2 q).GRPC = (heap q).GRPC)
    (hn : ∀ q, (heap2 q).Needs.filter (resolvable Services)
      = (heap q).Needs.filter (resolvable Services))
    (rest : GoMap Ptr) (dm : GoMap (List String)) :
    StartDependencyLoopFrom Services heap2 rest dm
      = StartDependencyLoopFrom Services heap rest dm := by
  induction rest generalizing dm with
  | nil => rfl
  | cons e rest ih =>
    have h1 : StartDependencyLoopFrom Services heap2 (e :: rest) dm
        = StartDependencyLoopFrom Services heap2 rest
            (StartDependencyStep Services heap2 dm e) := rfl
    have h2 : StartDependencyLoopFrom Services heap (e :: rest) dm
        = StartDependencyLoopFrom Services heap rest
            (StartDependencyStep Services heap dm e) := rfl
    have hstep : StartDependencyStep Services heap2 dm e
        = StartDependencyStep Services heap dm e := by
      rw [StartDependencyStep_eq_loop, StartDependencyStep_eq_loop,
        StartNeedsLoop_congr Services heap heap2 hg, StartNeedsLoop_filter, hn,
        ← StartNeedsLoop_filter]
    rw [h1, h2, hstep, ih]

theorem withNeeds_GRPC (heap : Heap) (p : Ptr) (needs : List String) (q : Ptr) :
    (withNeeds heap p needs q).GRPC = (heap q).GRPC := by
  unfold withNeeds Heap.update
  split_ifs with h
  · rw [h]
  · rfl

theorem withNeeds_Needs (heap : Heap) (p : Ptr) (needs : List String) (q : Ptr) :
    (withNeeds heap p needs q).Needs = if q = p then needs else (heap q).Needs := by
  unfold withNeeds Heap.update
  split_ifs <;> rfl

theorem filter_resolvable_remove (Services : GoMap Ptr) (name : String)
    (h : resolvable Services name = false) (needs : List String) :
    (needs.filter (fun n => decide (n ≠ name))).filter (resolvable Services)
      = needs.filter (resolvable Services) := by
  induction needs with
  | nil => rfl
  | cons n rest ih =>
    by_cases hn : n = name
    · subst hn
      simp only [ne_eq, not_true_eq_false, decide_False, Bool.false_eq_true,
        not_false_eq_true, List.filter_cons_of_neg]
      rw [List.filter_cons_of_neg (by simp [h])]
      exact ih
    · rw [List.filter_cons_of_pos (by simpa using hn)]
      cases hr : resolvable Services n with
      | true => rw [List.filter_cons_of_pos hr, List.filter_cons_of_pos hr, ih]
      | false =>
        rw [List.filter_cons_of_neg (by simp [hr]), List.filter_cons_of_neg (by simp [hr]), ih]

theorem filter_resolvable_erase (Services : GoMap Ptr) (name : String)
    (h : resolvable Services name = false) (needs : List String) :
    (needs.erase name).filter (resolvable Services) = needs.filter (resolvable Services) := by
  induction needs with
  | nil => rfl
  | cons n rest ih =>
    by_cases hn : n = name
    · subst hn
      rw [List.erase_cons_head, List.filter_cons_of_neg (by simp [h])]
    · rw [List.erase_cons_tail (by simpa using hn)]
      cases hr : resolvable Services n with
      | true => rw [List.filter_cons_of_pos hr, List.filter_cons_of_pos hr, ih]
      | false =>
        rw [List.filter_cons_of_neg (by simp [hr]), List.filter_cons_of_neg (by simp [hr]), ih]

/-- C14: a name in the needs of a service that refers to no configured service
is skipped by the dependency loop of `Start`, which has no error result: the
dependency map it leaves is the one it leaves for the same configuration with
that name removed from the needs of the service, be it every occurrence of the
name or the first one. -/
theorem C14_unresolvable_need_skipped (Services : GoMap Ptr) (heap : Heap)
    (dm : GoMap (List String)) (p : Ptr) (name : String)
    (hname : GoMap.lookup Services name = none) :
    StartDependencyLoop Services heap dm
      = StartDependencyLoop Services
          (withNeeds heap p ((heap p).Needs.filter (fun n => decide (n ≠ name)))) dm ∧
    StartDependencyLoop Services heap dm
      = StartDependencyLoop Services (withNeeds heap p ((heap p).Needs.erase name)) dm := by
  have hres : resolvable Services name = false := by
    unfold resolvable
    rw [hname]
    rfl
  constructor
  · symm
    apply StartDependencyLoopFrom_congr Services heap _ (withNeeds_GRPC heap p _)
    intro q
    rw [withNeeds_Needs]
    split_ifs with hq
    · rw [hq, filter_resolvable_remove Services name hres]
    · rfl
  · symm
    apply StartDependencyLoopFrom_congr Services heap _ (withNeeds_GRPC heap p _)
    intro q
    rw [withNeeds_Needs]
    split_ifs with hq
    · rw [hq, filter_resolvable_erase Services name hres]
    · rfl

/-- Witness of C14: "authorizer" on ":8282" needs "ghost", which is not
configured, and "reader" on ":9292": the map is the same as without "ghost". -/
theorem C14_unresolvable_need_skipped_witness :
    GoMap.lookup [("authorizer", 0), ("reader", 1)] "ghost" = none ∧
    StartDependencyLoop [("authorizer", 0), ("reader", 1)]
        (heapOf [mkAPI ["ghost", "reader"] ":8282" 0 0 0 0, mkAPI [] ":9292" 0 0 0 0]) []
      = StartDependencyLoop [("authorizer", 0), ("reader", 1)]
          (withNeeds
            (heapOf [mkAPI ["ghost", "reader"] ":8282" 0 0 0 0, mkAPI [] ":9292" 0 0 0 0]) 0
            ((heapOf [mkAPI ["ghost", "reader"] ":8282" 0 0 0 0,
                      mkAPI [] ":9292" 0 0 0 0] 0).Needs.filter
              (fun n => decide (n ≠ "ghost")))) [] :=
  ⟨by decide,
   (C14_unresolvable_need_skipped [("authorizer", 0), ("reader", 1)]
      (heapOf [mkAPI ["ghost", "reader"] ":8282" 0 0 0 0, mkAPI [] ":9292" 0 0 0 0]) []
      0 "ghost" (by decide)).1⟩

/-- Witness of C13: with a `StartServers` that fails with "bind", the health
server, which holds `NOT_SERVING` for "authorizer", is unchanged; with one that
succeeds, `Start` returns nil. -/
theorem C13_health_after_successful_start_witness :
    (Start (fun m => (m, some "bind")) [("authorizer", 0)]
        (heapOf [mkAPI [] ":8282" 0 0 0 0])
        { DependencyMap := [],
          HealthServer := some [("authorizer", ServingStatus.NOT_SERVING)] }).1.HealthServer
      = some [("authorizer", ServingStatus.NOT_SERVING)] ∧
    (Start (fun m => (m, (none : Option String))) [("authorizer", 0)]
        (heapOf [mkAPI [] ":8282" 0 0 0 0])
        { DependencyMap := [],
          HealthServer := some [("authorizer", ServingStatus.NOT_SERVING)] }).2 = none :=
  ⟨((C13_health_after_successful_start (fun m => (m, some "bind")) [("authorizer", 0)]
        (heapOf [mkAPI [] ":8282" 0 0 0 0])
        { DependencyMap := [],
          HealthServer := some [("authorizer", ServingStatus.NOT_SERVING)] }).1
        "bind" rfl).2.2 rfl,
   ((C13_health_after_successful_start (fun m => (m, (none : Option String)))
        [("authorizer", 0)] (heapOf [mkAPI [] ":8282" 0 0 0 0])
        { DependencyMap := [],
          HealthServer := some [("authorizer", ServingStatus.NOT_SERVING)] }).2
        rfl [("authorizer", ServingStatus.NOT_SERVING)] rfl).1⟩

/-! ## C20: every edge is justified by the configuration -/

theorem GoMap.mem_of_lookup {β : Type} (m : GoMap β) (k : String) (v : β)
    (h : GoMap.lookup m k = some v) : (k, v) ∈ m := by
  induction m with
  | nil => simp [GoMap.lookup] at h
  | cons e rest ih =>
    obtain ⟨k1, v1⟩ := e
    unfold GoMap.lookup at h
    split_ifs at h with hk
    · subst hk
      rw [Option.some.inj h]
      exact List.mem_cons_self _ _
    · exact List.mem_cons_of_mem _ (ih h)

theorem StartNeedsStep_justified (Services : GoMap Ptr) (heap : Heap)
    (entry : String × Ptr) (hentry : entry ∈ Services)
    (dm : GoMap (List String)) (name : String) (hname : name ∈ (heap entry.2).Needs)
    (h : DependencyMapJustified Services heap dm) :
    DependencyMapJustified Services heap
      (StartNeedsStep Services heap entry.2 dm name) := by
  unfold StartNeedsStep
  cases hl : GoMap.lookup Services name with
  | none => exact h
  | some dep =>
    simp only
    split_ifs with hc
    · simp only [Bool.and_eq_true, Bool.not_eq_true', decide_eq_true_eq] at hc
      obtain ⟨_, hne⟩ := hc
      constructor
      · intro k a ha
        rw [GoMap.getSlice_set] at ha
        split_ifs at ha with hk
        · rcases List.mem_append.1 ha with h1 | h1
          · rw [hk]
            exact h.1 _ a h1
          · rw [List.mem_singleton] at h1
            subst h1
            subst hk
            exact ⟨entry, hentry, rfl, (name, dep), GoMap.mem_of_lookup _ _ _ hl, hname, rfl,
              fun e => hne e.symm⟩
        · exact h.1 k a ha
      · intro k hk
        rw [GoMap.getSlice_set]
        split_ifs with hka
        · simp
        · rw [GoMap.keys_set] at hk
          split_ifs at hk with hin
          · exact h.2 k hk
          · rcases List.mem_append.1 hk with h1 | h1
            · exact h.2 k h1
            · exact absurd (List.mem_singleton.1 h1) hka
    · exact h

theorem StartNeedsLoop_justified (Services : GoMap Ptr) (heap : Heap)
    (entry : String × Ptr) (hentry : entry ∈ Services) (needs : List String)
    (hneeds : ∀ n, n ∈ needs → n ∈ (heap entry.2).Needs)
    (dm : GoMap (List String)) (h : DependencyMapJustified Services heap dm) :
    DependencyMapJustified Services heap
      (StartNeedsLoop Services heap entry.2 dm needs) := by
  induction needs generalizing dm with
  | nil => exact h
  | cons n rest ih =>
    have hstep : StartNeedsLoop Services heap entry.2 dm (n :: rest)
        = StartNeedsLoop Services heap entry.2
            (StartNeedsStep Services heap entry.2 dm n) rest := rfl
    rw [hstep]
    apply ih (fun m hm => hneeds m (List.mem_cons_of_mem _ hm))
    exact StartNeedsStep_justified Services heap entry hentry dm n
      (hneeds n (List.mem_cons_self _ _)) h

theorem StartDependencyLoopFrom_justified (Services : GoMap Ptr) (heap : Heap)
    (rest : GoMap Ptr) (hrest : ∀ e, e ∈ rest → e ∈ Services)
    (dm : GoMap (List String)) (h : DependencyMapJustified Services heap dm) :
    DependencyMapJustified Services heap
      (StartDependencyLoopFrom Services heap rest dm) := by
  induction rest generalizing dm with
  | nil => exact h
  | cons e rest ih =>
    have hstep : StartDependencyLoopFrom Services heap (e :: rest) dm
        = StartDependencyLoopFrom Services heap rest
            (StartDependencyStep Services heap dm e) := rfl
    rw [hstep]
    apply ih (fun x hx => hrest x (List.mem_cons_of_mem _ hx))
    rw [StartDependencyStep_eq_loop]
    exact StartNeedsLoop_justified Services heap e (hrest e (List.mem_cons_self _ _)) _
      (fun _ hn => hn) dm h

/-- C20: from the empty dependency map, every edge `k -> a` left by the
dependency loop of `Start` is justified by the configuration: a configured
service S listens on `k`, a configured service D listens on `a`, `a` differs
from `k` and the name of D is in the needs of S. So every target is the listen
address of a configured service, and every key of the map has an edge: an
endpoint without such needs has no entry. -/
theorem C20_edges_justified_by_configuration (Services : GoMap Ptr) (heap : Heap) :
    (∀ k a, a ∈ GoMap.getSlice (StartDependencyLoop Services heap []) k →
      ∃ S, S ∈ Services ∧ (heap S.2).GRPC.ListenAddress = k ∧
        ∃ D, D ∈ Services ∧ D.1 ∈ (heap S.2).Needs ∧
          (heap D.2).GRPC.ListenAddress = a ∧ a ≠ k) ∧
    (∀ k, k ∈ GoMap.keys (StartDependencyLoop Services heap []) →
      GoMap.getSlice (StartDependencyLoop Services heap []) k ≠ []) := by
  have h0 : DependencyMapJustified Services heap [] := by
    constructor
    · intro k a ha
      simp [GoMap.getSlice, GoMap.lookup] at ha
    · intro k hk
      simp [GoMap.keys] at hk
  exact StartDependencyLoopFrom_justified Services heap Services (fun _ he => he) [] h0

/-- Witness of C20: "authorizer" on ":8282" needs "reader" on ":9292"; the
edge ":8282" -> ":9292" is in the map and is justified. -/
theorem C20_edges_justified_by_configuration_witness :
    ":9292" ∈ GoMap.getSlice
        (StartDependencyLoop [("authorizer", 0), ("reader", 1)]
          (heapOf [mkAPI ["reader"] ":8282" 0 0 0 0, mkAPI [] ":9292" 0 0 0 0]) [])
        ":8282" ∧
    ∃ S, S ∈ [("authorizer", 0), ("reader", 1)] ∧
      (heapOf [mkAPI ["reader"] ":8282" 0 0 0 0, mkAPI [] ":9292" 0 0 0 0] S.2
        ).GRPC.ListenAddress = ":8282" ∧
      ∃ D, D ∈ [("authorizer", 0), ("reader", 1)] ∧
        D.1 ∈ (heapOf [mkAPI ["reader"] ":8282" 0 0 0 0, mkAPI [] ":9292" 0 0 0 0] S.2
          ).Needs ∧
        (heapOf [mkAPI ["reader"] ":8282" 0 0 0 0, mkAPI [] ":9292" 0 0 0 0] D.2
          ).GRPC.ListenAddress = ":9292" ∧
        ":9292" ≠ ":8282" :=
  ⟨by decide,
   (C20_edges_justified_by_configuration [("authorizer", 0), ("reader", 1)]
      (heapOf [mkAPI ["reader"] ":8282" 0 0 0 0, mkAPI [] ":9292" 0 0 0 0])).1
      ":8282" ":9292" (by decide)⟩

/-! ## C15: the config of a group is that of its first definition -/

theorem mapToGRPCPortsStep_groupAPI (st : PortState) (entry : String × Ptr) (a : String) :
    groupAPI (mapToGRPCPortsStep st entry).portMap a
      = match groupAPI st.portMap a with
        | some p => some p
        | none => if (st.heap entry.2).GRPC.ListenAddress = a then some entry.2 else none := by
  unfold mapToGRPCPortsStep groupAPI
  simp only
  rw [GoMap.lookup_set]
  by_cases h : a = (st.heap entry.2).GRPC.ListenAddress
  · subst h
    cases GoMap.lookup st.portMap (st.heap entry.2).GRPC.ListenAddress <;> simp
  · have h2 : ¬ (st.heap entry.2).GRPC.ListenAddress = a := fun e => h e.symm
    rw [if_neg h]
    cases GoMap.lookup st.portMap a <;> simp [h2]

theorem mapToGRPCPorts_fold_groupAPI (heap0 : Heap) (l : GoMap Ptr) (st : PortState)
    (hst : ∀ p, (st.heap p).GRPC = (heap0 p).GRPC) (a : String) :
    groupAPI (l.foldl mapToGRPCPortsStep st).portMap a
      = match groupAPI st.portMap a with
        | some p => some p
        | none => (firstFor l heap0 a).map Prod.snd := by
  induction l generalizing st with
  | nil =>
    simp only [List.foldl_nil, firstFor, List.find?_nil, Option.map_none']
    cases groupAPI st.portMap a <;> rfl
  | cons e rest ih =>
    have hst2 : ∀ p, ((mapToGRPCPortsStep st e).heap p).GRPC = (heap0 p).GRPC := by
      intro p
      rw [mapToGRPCPortsStep_GRPC, hst]
    rw [List.foldl_cons, ih _ hst2, mapToGRPCPortsStep_groupAPI, hst e.2]
    cases hg : groupAPI st.portMap a with
    | some p => rfl
    | none =>
      by_cases h : (heap0 e.2).GRPC.ListenAddress = a
      · simp [firstFor, List.find?_cons, h]
      · simp [firstFor, List.find?_cons, h]

theorem mapToGRPCPorts_groupAPI (api : GoMap Ptr) (heap : Heap) (a : String) :
    groupAPI (mapToGRPCPorts api heap).portMap a = (firstFor api heap a).map Prod.snd := by
  unfold mapToGRPCPorts
  rw [mapToGRPCPorts_fold_groupAPI heap api _ (fun _ => rfl)]
  rfl

theorem mapToGRPCPorts_append (pre post : GoMap Ptr) (heap : Heap) :
    mapToGRPCPorts (pre ++ post) heap
      = post.foldl mapToGRPCPortsStep (mapToGRPCPorts pre heap) := by
  unfold mapToGRPCPorts
  rw [List.foldl_append]

/-- C15: in the port map returned by `mapToGRPCPorts`, the group of a listen
address points to the API record of the first service definition, in iteration
order, bound to that address, so its effective config is that record; its name
list holds the names of all the definitions bound to the address; and a group
that exists after a part of the iteration keeps its pointer through the
definitions that follow. -/
theorem C15_group_config_of_first_definition (api : GoMap Ptr) (heap : Heap) :
    (∀ k g, (k, g) ∈ (mapToGRPCPorts api heap).portMap →
      ∃ first, firstFor api heap k = some first ∧ g.API = first.2 ∧
        (mapToGRPCPorts api heap).effective g = (mapToGRPCPorts api heap).heap first.2 ∧
        g.registeredServices
          = (api.filter (fun e => decide ((heap e.2).GRPC.ListenAddress = k))).map
              Prod.fst) ∧
    (∀ pre post, api = pre ++ post →
      ∀ k g, (k, g) ∈ (mapToGRPCPorts pre heap).portMap →
        ∃ g2, (k, g2) ∈ (mapToGRPCPorts api heap).portMap ∧ g2.API = g.API) := by
  constructor
  · intro k g hg
    have hl := (GoMap.mem_iff_lookup _ (mapToGRPCPorts_nodup api heap) k g).1 hg
    have hapi := mapToGRPCPorts_groupAPI api heap k
    unfold groupAPI at hapi
    rw [hl] at hapi
    simp only [Option.map_some'] at hapi
    cases hf : firstFor api heap k with
    | none => rw [hf] at hapi; simp at hapi
    | some first =>
      rw [hf] at hapi
      simp only [Option.map_some', Option.some.injEq] at hapi
      refine ⟨first, rfl, hapi, ?_, mapToGRPCPorts_names_of_mem api heap k g hg⟩
      unfold PortState.effective
      rw [hapi]
  · intro pre post hsplit k g hg
    subst hsplit
    have hl := (GoMap.mem_iff_lookup _ (mapToGRPCPorts_nodup pre heap) k g).1 hg
    have hfold := mapToGRPCPorts_fold_groupAPI heap post (mapToGRPCPorts pre heap)
      (fun p => mapToGRPCPorts_fold_GRPC pre _ p) k
    rw [← mapToGRPCPorts_append] at hfold
    have hpre : groupAPI (mapToGRPCPorts pre heap).portMap k = some g.API := by
      unfold groupAPI
      rw [hl]
      rfl
    rw [hpre] at hfold
    simp only at hfold
    unfold groupAPI at hfold
    cases hl2 : GoMap.lookup (mapToGRPCPorts (pre ++ post) heap).portMap k with
    | none => rw [hl2] at hfold; simp at hfold
    | some g2 =>
      rw [hl2] at hfold
      simp only [Option.map_some', Option.some.injEq] at hfold
      exact ⟨g2, (GoMap.mem_iff_lookup _ (mapToGRPCPorts_nodup (pre ++ post) heap) k g2).2 hl2,
        hfold⟩

/-- Witness of C15: "reader" (pointer 1) and "writer" (pointer 2) on ":9292",
in that order: the group of ":9292" points to the record of "reader" and lists
both names. -/
theorem C15_group_config_of_first_definition_witness :
    ((":9292", { registeredServices := ["reader", "writer"], API := 1 })
      ∈ (mapToGRPCPorts [("authorizer", 0), ("reader", 1), ("writer", 2)]
          (heapOf [mkAPI [] ":8282" 0 0 0 0, mkAPI [] ":9292" 0 0 0 0,
                   mkAPI [] ":9292" 7 7 7 7])).portMap) ∧
    ∃ first,
      firstFor [("authorizer", 0), ("reader", 1), ("writer", 2)]
          (heapOf [mkAPI [] ":8282" 0 0 0 0, mkAPI [] ":9292" 0 0 0 0,
                   mkAPI [] ":9292" 7 7 7 7]) ":9292" = some first ∧
        ({ registeredServices := ["reader", "writer"], API := 1 } : services).API = first.2 ∧
        (mapToGRPCPorts [("authorizer", 0), ("reader", 1), ("writer", 2)]
            (heapOf [mkAPI [] ":8282" 0 0 0 0, mkAPI [] ":9292" 0 0 0 0,
                     mkAPI [] ":9292" 7 7 7 7])).effective
            { registeredServices := ["reader", "writer"], API := 1 }
          = (mapToGRPCPorts [("authorizer", 0), ("reader", 1), ("writer", 2)]
              (heapOf [mkAPI [] ":8282" 0 0 0 0, mkAPI [] ":9292" 0 0 0 0,
                       mkAPI [] ":9292" 7 7 7 7])).heap first.2 ∧
        ({ registeredServices := ["reader", "writer"], API := 1 } : services).registeredServices
          = ([("authorizer", 0), ("reader", 1), ("writer", 2)].filter
              (fun e => decide
                ((heapOf [mkAPI [] ":8282" 0 0 0 0, mkAPI [] ":9292" 0 0 0 0,
                          mkAPI [] ":9292" 7 7 7 7] e.2).GRPC.ListenAddress = ":9292"))).map
              Prod.fst :=
  ⟨by decide,
   (C15_group_config_of_first_definition [("authorizer", 0), ("reader", 1), ("writer", 2)]
      (heapOf [mkAPI [] ":8282" 0 0 0 0, mkAPI [] ":9292" 0 0 0 0,
               mkAPI [] ":9292" 7 7 7 7])).1 ":9292"
      { registeredServices := ["reader", "writer"], API := 1 } (by decide)⟩

/-! ## C19: timeouts that are already set -/

/-- C19, the code at a definition with an explicit write timeout and the idle
timeout unset: one service "authorizer" on ":8282" with read = 1s,
read-header = 1s, write = 5s and idle = 0. The group of ":8282" comes out with
write = 30s: the branch for the unset idle timeout overwrites the write timeout
that was set, and leaves the idle timeout at 0. -/
theorem C19_set_write_timeout_overwritten :
    (mapToGRPCPorts [("authorizer", 0)]
        (heapOf [mkAPI [] ":8282" (1 * Second) (1 * Second) (5 * Second) 0])).portMap
      = [(":8282", { registeredServices := ["authorizer"], API := 0 })] ∧
    ((mapToGRPCPorts [("authorizer", 0)]
        (heapOf [mkAPI [] ":8282" (1 * Second) (1 * Second) (5 * Second) 0])).effective
        { registeredServices := ["authorizer"], API := 0 }).Gateway
      = { ReadTimeout := 1 * Second, ReadHeaderTimeout := 1 * Second,
          WriteTimeout := 30 * Second, IdleTimeout := 0 } ∧
    ((mapToGRPCPorts [("authorizer", 0)]
        (heapOf [mkAPI [] ":8282" (1 * Second) (1 * Second) (5 * Second) 0])).effective
        { registeredServices := ["authorizer"], API := 0 }).Gateway.WriteTimeout
      ≠ 5 * Second := by
  decide

/-! ## C16: grouping twice -/

theorem setDefaultGatewayTimeouts_idem (a : API) :
    setDefaultGatewayTimeouts (setDefaultGatewayTimeouts a) = setDefaultGatewayTimeouts a := by
  obtain ⟨needs, grpc, ⟨r, rh, w, i⟩⟩ := a
  by_cases hr : r = 0 <;> by_cases hrh : rh = 0 <;> by_cases hw : w = 0 <;>
    by_cases hi : i = 0 <;> simp [setDefaultGatewayTimeouts, Second, hr, hrh, hw, hi]

theorem mapToGRPCPortsStep_heap (st : PortState) (entry : String × Ptr) :
    (mapToGRPCPortsStep st entry).heap
      = st.heap.update (stepPointer st entry)
          (setDefaultGatewayTimeouts (st.heap (stepPointer st entry))) := by
  unfold mapToGRPCPortsStep stepPointer
  simp only
  cases GoMap.lookup st.portMap (st.heap entry.2).GRPC.ListenAddress <;> rfl

theorem mapToGRPCPortsStep_congr (st st2 : PortState) (entry : String × Ptr)
    (hp : st2.portMap = st.portMap) (hg : ∀ p, (st2.heap p).GRPC = (st.heap p).GRPC) :
    (mapToGRPCPortsStep st2 entry).portMap = (mapToGRPCPortsStep st entry).portMap ∧
    stepPointer st2 entry = stepPointer st entry := by
  unfold mapToGRPCPortsStep stepPointer
  simp only [hp, hg]
  exact ⟨trivial, trivial⟩

theorem mapToGRPCPorts_fold_congr (l : GoMap Ptr) (st st2 : PortState)
    (hp : st2.portMap = st.portMap) (hg : ∀ p, (st2.heap p).GRPC = (st.heap p).GRPC) :
    (l.foldl mapToGRPCPortsStep st2).portMap = (l.foldl mapToGRPCPortsStep st).portMap ∧
    touched st2 l = touched st l := by
  induction l generalizing st st2 with
  | nil => exact ⟨hp, rfl⟩
  | cons e rest ih =>
    have hstep := mapToGRPCPortsStep_congr st st2 e hp hg
    have hg2 : ∀ p, ((mapToGRPCPortsStep st2 e).heap p).GRPC
        = ((mapToGRPCPortsStep st e).heap p).GRPC := by
      intro p
      rw [mapToGRPCPortsStep_GRPC, mapToGRPCPortsStep_GRPC, hg]
    have hrec := ih (mapToGRPCPortsStep st e) (mapToGRPCPortsStep st2 e) hstep.1 hg2
    refine ⟨hrec.1, ?_⟩
    simp only [touched, hstep.2, hrec.2]

theorem mapToGRPCPortsStep_defaulted_mono (st : PortState) (entry : String × Ptr) (p : Ptr)
    (h : Defaulted st.heap p) : Defaulted (mapToGRPCPortsStep st entry).heap p := by
  unfold Defaulted at h ⊢
  rw [mapToGRPCPortsStep_heap]
  unfold Heap.update
  split_ifs with hp
  · exact setDefaultGatewayTimeouts_idem _
  · exact h

theorem mapToGRPCPortsStep_defaulted_pointer (st : PortState) (entry : String × Ptr) :
    Defaulted (mapToGRPCPortsStep st entry).heap (stepPointer st entry) := by
  unfold Defaulted
  rw [mapToGRPCPortsStep_heap]
  unfold Heap.update
  rw [if_pos rfl]
  exact setDefaultGatewayTimeouts_idem _

theorem mapToGRPCPorts_fold_defaulted_mono (l : GoMap Ptr) (st : PortState) (p : Ptr)
    (h : Defaulted st.heap p) : Defaulted (l.foldl mapToGRPCPortsStep st).heap p := by
  induction l generalizing st with
  | nil => exact h
  | cons e rest ih =>
    rw [List.foldl_cons]
    exact ih _ (mapToGRPCPortsStep_defaulted_mono st e p h)

theorem mapToGRPCPorts_fold_touched_defaulted (l : GoMap Ptr) (st : PortState) (q : Ptr)
    (hq : q ∈ touched st l) : Defaulted (l.foldl mapToGRPCPortsStep st).heap q := by
  induction l generalizing st with
  | nil => simp [touched] at hq
  | cons e rest ih =>
    rw [List.foldl_cons]
    simp only [touched, List.mem_cons] at hq
    rcases hq with rfl | hq
    · exact mapToGRPCPorts_fold_defaulted_mono rest _ _
        (mapToGRPCPortsStep_defaulted_pointer st e)
    · exact ih _ hq

theorem Heap.update_self (heap : Heap) (p : Ptr) : heap.update p (heap p) = heap := by
  funext q
  unfold Heap.update
  split_ifs with h
  · rw [h]
  · rfl

theorem mapToGRPCPorts_fold_heap_fixed (l : GoMap Ptr) (st : PortState)
    (h : ∀ q, q ∈ touched st l → Defaulted st.heap q) :
    (l.foldl mapToGRPCPortsStep st).heap = st.heap := by
  induction l generalizing st with
  | nil => rfl
  | cons e rest ih =>
    have hstep : (mapToGRPCPortsStep st e).heap = st.heap := by
      rw [mapToGRPCPortsStep_heap]
      have hd : Defaulted st.heap (stepPointer st e) := h _ (by simp [touched])
      unfold Defaulted at hd
      rw [hd, Heap.update_self]
    rw [List.foldl_cons, ih, hstep]
    intro q hq
    rw [hstep]
    exact h q (by simp [touched, hq])

theorem mapToGRPCPorts_twice (api : GoMap Ptr) (heap : Heap) :
    (mapToGRPCPorts api (mapToGRPCPorts api heap).heap).portMap
        = (mapToGRPCPorts api heap).portMap ∧
    (mapToGRPCPorts api (mapToGRPCPorts api heap).heap).heap
        = (mapToGRPCPorts api heap).heap := by
  have hcongr := mapToGRPCPorts_fold_congr api { portMap := [], heap := heap }
    { portMap := [], heap := (mapToGRPCPorts api heap).heap } rfl
    (fun p => mapToGRPCPorts_fold_GRPC api _ p)
  refine ⟨hcongr.1, ?_⟩
  unfold mapToGRPCPorts
  apply mapToGRPCPorts_fold_heap_fixed
  intro q hq
  have hq2 : q ∈ touched { portMap := [], heap := heap } api := by
    have := hcongr.2
    unfold mapToGRPCPorts at this
    rw [this] at hq
    exact hq
  exact mapToGRPCPorts_fold_touched_defaulted api _ q hq2

/-- C16: running `mapToGRPCPorts` a second time, in the same iteration order,
on the configuration as the first run left it gives the same port map (the
same keys, the same name list and the same pointer for every key) and leaves
every API record as it was, so the effective transport config of every group is
the same as after the first run. -/
theorem C16_grouping_twice_same_groups (api : GoMap Ptr) (heap : Heap) :
    GoMap.keys (mapToGRPCPorts api (mapToGRPCPorts api heap).heap).portMap
      = GoMap.keys (mapToGRPCPorts api heap).portMap ∧
    (∀ k, groupNames (mapToGRPCPorts api (mapToGRPCPorts api heap).heap).portMap k
      = groupNames (mapToGRPCPorts api heap).portMap k) ∧
    (∀ k g, (k, g) ∈ (mapToGRPCPorts api heap).portMap →
      (k, g) ∈ (mapToGRPCPorts api (mapToGRPCPorts api heap).heap).portMap ∧
      (mapToGRPCPorts api (mapToGRPCPorts api heap).heap).effective g
        = (mapToGRPCPorts api heap).effective g) ∧
    (mapToGRPCPorts api (mapToGRPCPorts api heap).heap).portMap
      = (mapToGRPCPorts api heap).portMap ∧
    (mapToGRPCPorts api (mapToGRPCPorts api heap).heap).heap
      = (mapToGRPCPorts api heap).heap := by
  obtain ⟨hp, hh⟩ := mapToGRPCPorts_twice api heap
  refine ⟨by rw [hp], fun k => by rw [hp], ?_, hp, hh⟩
  intro k g hg
  refine ⟨by rw [hp]; exact hg, ?_⟩
  unfold PortState.effective
  rw [hh]

/-- Witness of C16: "reader" and "writer" on ":9292" with all timeouts unset:
after the second run the group of ":9292" is the same, with the same effective
config. -/
theorem C16_grouping_twice_same_groups_witness :
    ((":9292", { registeredServices := ["reader", "writer"], API := 0 })
      ∈ (mapToGRPCPorts [("reader", 0), ("writer", 1)]
          (heapOf [mkAPI [] ":9292" 0 0 0 0, mkAPI [] ":9292" 0 0 0 0])).portMap) ∧
    ((":9292", { registeredServices := ["reader", "writer"], API := 0 })
      ∈ (mapToGRPCPorts [("reader", 0), ("writer", 1)]
          (mapToGRPCPorts [("reader", 0), ("writer", 1)]
            (heapOf [mkAPI [] ":9292" 0 0 0 0, mkAPI [] ":9292" 0 0 0 0])).heap).portMap) ∧
    (mapToGRPCPorts [("reader", 0), ("writer", 1)]
        (mapToGRPCPorts [("reader", 0), ("writer", 1)]
          (heapOf [mkAPI [] ":9292" 0 0 0 0, mkAPI [] ":9292" 0 0 0 0])).heap).effective
        { registeredServices := ["reader", "writer"], API := 0 }
      = (mapToGRPCPorts [("reader", 0), ("writer", 1)]
          (heapOf [mkAPI [] ":9292" 0 0 0 0, mkAPI [] ":9292" 0 0 0 0])).effective
          { registeredServices := ["reader", "writer"], API := 0 } :=
  ⟨by decide,
   (C16_grouping_twice_same_groups [("reader", 0), ("writer", 1)]
      (heapOf [mkAPI [] ":9292" 0 0 0 0, mkAPI [] ":9292" 0 0 0 0])).2.2.1 ":9292"
      { registeredServices := ["reader", "writer"], API := 0 } (by decide)⟩

/-! ## C17: two services on one endpoint -/

theorem mapToGRPCPortsStep_Needs (st : PortState) (entry : String × Ptr) (p : Ptr) :
    ((mapToGRPCPortsStep st entry).heap p).Needs = (st.heap p).Needs := by
  unfold mapToGRPCPortsStep Heap.update
  simp only
  split_ifs with h
  · rw [setDefaultGatewayTimeouts_Needs, h]
  · rfl

theorem mapToGRPCPorts_fold_Needs (l : GoMap Ptr) (st : PortState) (p : Ptr) :
    ((l.foldl mapToGRPCPortsStep st).heap p).Needs = (st.heap p).Needs := by
  induction l generalizing st with
  | nil => rfl
  | cons e rest ih =>
    rw [List.foldl_cons, ih, mapToGRPCPortsStep_Needs]

theorem mapToGRPCPorts_two_on_one_address (name1 name2 : String) (p1 p2 : Ptr) (heap : Heap)
    (haddr : (heap p1).GRPC.ListenAddress = (heap p2).GRPC.ListenAddress) :
    (mapToGRPCPorts [(name1, p1), (name2, p2)] heap).portMap
      = [((heap p1).GRPC.ListenAddress,
          { registeredServices := [name1, name2], API := p1 })] := by
  have h2 : ((mapToGRPCPortsStep { portMap := [], heap := heap } (name1, p1)).heap p2).GRPC
      = (heap p1).GRPC := by
    rw [mapToGRPCPortsStep_GRPC]
    cases hg1 : (heap p1).GRPC
    cases hg2 : (heap p2).GRPC
    rw [hg1, hg2] at haddr
    simp only at haddr
    rw [haddr]
  have h1 : (mapToGRPCPortsStep { portMap := [], heap := heap } (name1, p1)).portMap
      = [((heap p1).GRPC.ListenAddress, { registeredServices := [name1], API := p1 })] := by
    simp [mapToGRPCPortsStep, GoMap.lookup, GoMap.set]
  unfold mapToGRPCPorts
  simp only [List.foldl_cons, List.foldl_nil]
  generalize mapToGRPCPortsStep { portMap := [], heap := heap } (name1, p1) = st1 at h1 h2
  unfold mapToGRPCPortsStep
  simp [h1, h2, GoMap.lookup, GoMap.set]

theorem StartDependencyLoop_no_needs (Services : GoMap Ptr) (heap : Heap)
    (dm : GoMap (List String)) (h : ∀ e, e ∈ Services → (heap e.2).Needs = []) :
    StartDependencyLoop Services heap dm = dm := by
  have key : ∀ rest : GoMap Ptr, (∀ e, e ∈ rest → (heap e.2).Needs = []) →
      ∀ d, StartDependencyLoopFrom Services heap rest d = d := by
    intro rest
    induction rest with
    | nil => intro _ d; rfl
    | cons e rest ih =>
      intro hrest d
      have hstep : StartDependencyLoopFrom Services heap (e :: rest) d
          = StartDependencyLoopFrom Services heap rest
              (StartDependencyStep Services heap d e) := rfl
      have he : StartDependencyStep Services heap d e = d := by
        rw [StartDependencyStep_eq_loop, hrest e (List.mem_cons_self _ _)]
        rfl
      rw [hstep, he]
      exact ih (fun x hx => hrest x (List.mem_cons_of_mem _ hx)) d
  exact key Services h dm

/-- C17: two service definitions on one listen address, without needs, each
advertised by a registered service of its own. `mapToGRPCPorts` returns exactly
one group, with both names; the dependency loop of `Start` adds no edge, on the
configuration as given and as `mapToGRPCPorts` leaves it; and the composed GRPC
closure of the group, invoked once, calls the GRPC registration of each of the
two services exactly once, in registry order, whichever of the two comes first
in the registry. -/
theorem C17_two_services_one_endpoint {σ H C : Type} (name1 name2 : String) (p1 p2 : Ptr)
    (heap : Heap) (key1 key2 : String)
    (service1 service2 : ServiceTypes (GRPCRegistrations σ) H C)
    (dm : GoMap (List String)) (server : σ)
    (haddr : (heap p1).GRPC.ListenAddress = (heap p2).GRPC.ListenAddress)
    (hneeds1 : (heap p1).Needs = []) (hneeds2 : (heap p2).Needs = [])
    (h1 : name1 ∈ service1.AvailableServices) (h2 : name2 ∈ service2.AvailableServices) :
    (mapToGRPCPorts [(name1, p1), (name2, p2)] heap).portMap
      = [((heap p1).GRPC.ListenAddress,
          { registeredServices := [name1, name2], API := p1 })] ∧
    StartDependencyLoop [(name1, p1), (name2, p2)] heap dm = dm ∧
    StartDependencyLoop [(name1, p1), (name2, p2)]
      (mapToGRPCPorts [(name1, p1), (name2, p2)] heap).heap dm = dm ∧
    composedGRPC
        (composerLoop [name1, name2] [(key1, service1), (key2, service2)]).grpcs server
      = service2.GetGRPCRegistrations [name1, name2]
          (service1.GetGRPCRegistrations [name1, name2] server) ∧
    composedGRPC
        (composerLoop [name1, name2] [(key2, service2), (key1, service1)]).grpcs server
      = service1.GetGRPCRegistrations [name1, name2]
          (service2.GetGRPCRegistrations [name1, name2] server) := by
  have ha1 : advertisesOneOf [name1, name2] service1 := ⟨name1, h1, by simp⟩
  have ha2 : advertisesOneOf [name1, name2] service2 := ⟨name2, h2, by simp⟩
  refine ⟨mapToGRPCPorts_two_on_one_address name1 name2 p1 p2 heap haddr, ?_, ?_, ?_, ?_⟩
  · apply StartDependencyLoop_no_needs
    intro e he
    simp only [List.mem_cons, List.mem_singleton, List.not_mem_nil, or_false] at he
    rcases he with rfl | rfl
    · exact hneeds1
    · exact hneeds2
  · apply StartDependencyLoop_no_needs
    intro e he
    unfold mapToGRPCPorts
    rw [mapToGRPCPorts_fold_Needs]
    simp only [List.mem_cons, List.mem_singleton, List.not_mem_nil, or_false] at he
    rcases he with rfl | rfl
    · exact hneeds1
    · exact hneeds2
  · rw [composerLoop_cons, composerLoop_cons, composerLoop_nil, if_pos ha1, if_pos ha2]
    rfl
  · rw [composerLoop_cons, composerLoop_cons, composerLoop_nil, if_pos ha1, if_pos ha2]
    rfl

/-- Witness of C17: "authorizer" and "reader" both on ":8282", without needs,
advertised by the recording services "authorizer" and "edge": the composed GRPC
closure records each of the two once. -/
theorem C17_two_services_one_endpoint_witness :
    ((heapOf [mkAPI [] ":8282" 0 0 0 0, mkAPI [] ":8282" 0 0 0 0] 0).GRPC.ListenAddress
        = (heapOf [mkAPI [] ":8282" 0 0 0 0, mkAPI [] ":8282" 0 0 0 0] 1).GRPC.ListenAddress ∧
      "authorizer" ∈ (recordingService "authorizer" ["authorizer"]).AvailableServices ∧
      "reader" ∈ (recordingService "edge" ["reader", "writer"]).AvailableServices) ∧
    composedGRPC
        (composerLoop ["authorizer", "reader"]
          [("authorizer", recordingService "authorizer" ["authorizer"]),
           ("edge", recordingService "edge" ["reader", "writer"])]).grpcs []
      = ["authorizer", "edge"] :=
  ⟨by decide,
   (C17_two_services_one_endpoint "authorizer" "reader" 0 1
      (heapOf [mkAPI [] ":8282" 0 0 0 0, mkAPI [] ":8282" 0 0 0 0]) "authorizer" "edge"
      (recordingService "authorizer" ["authorizer"])
      (recordingService "edge" ["reader", "writer"]) [] []
      (by decide) (by decide) (by decide) (by decide) (by decide)).2.2.2.1⟩

/-! ## C18: when `validateConfig` runs -/

theorem ConfigServicesGroups_events {ε G H C : Type} (c : Collaborators ε G H C)
    (Services : GoMap (ServiceTypes G H C)) (groups : GoMap services) :
    ∀ e, e ∈ (ConfigServicesGroups c Services groups).1 → e.groupsOrComposes = true := by
  induction groups with
  | nil => intro e he; simp [ConfigServicesGroups] at he
  | cons g rest ih =>
    obtain ⟨address, serviceConfig⟩ := g
    intro e he
    unfold ConfigServicesGroups at he
    cases hmw : c.GetMiddlewaresForService address with
    | some err =>
      rw [hmw] at he
      simp only [List.mem_singleton] at he
      subst he
      rfl
    | none =>
      rw [hmw] at he
      simp only at he
      cases hcs : c.CreateService serviceConfig
          (composerLoop serviceConfig.registeredServices Services) with
      | some err =>
        rw [hcs] at he
        simp only [List.mem_cons, List.mem_singleton, List.not_mem_nil, or_false] at he
        rcases he with rfl | rfl <;> rfl
      | none =>
        rw [hcs] at he
        simp only at he
        have hconsole : ∀ x, x ∈ (if contains serviceConfig.registeredServices "console" = true
            then [Event.mountConsole address] else []) → x.groupsOrComposes = true := by
          intro x hx
          split_ifs at hx
          · rw [List.mem_singleton] at hx
            subst hx
            rfl
          · simp at hx
        cases hadd : c.AddGRPCServer address with
        | some err =>
          rw [hadd] at he
          simp only [List.mem_append, List.mem_cons, List.mem_singleton, List.not_mem_nil,
            or_false] at he
          rcases he with ((rfl | rfl) | hx) | rfl
          · rfl
          · rfl
          · exact hconsole e hx
          · rfl
        | none =>
          rw [hadd] at he
          simp only [List.mem_append, List.mem_cons, List.mem_singleton, List.not_mem_nil,
            or_false] at he
          rcases he with (((rfl | rfl) | hx) | rfl) | hrest
          · rfl
          · rfl
          · exact hconsole e hx
          · rfl
          · exact ih e hrest

theorem ConfigServices_setup_error {ε G H C : Type} (c : Collaborators ε G H C)
    (cfg : Config) (heap : Heap) (Services : GoMap (ServiceTypes G H C)) (err : ε)
    (hs : setupHealthAndMetrics c cfg = some err) :
    ConfigServices c cfg heap Services
      = ([Event.setupHealthAndMetrics], some (ConfigServicesError.external err)) := by
  unfold ConfigServices
  rw [hs]

theorem ConfigServices_prepare_error {ε G H C : Type} (c : Collaborators ε G H C)
    (cfg : Config) (heap : Heap) (Services Services1 : GoMap (ServiceTypes G H C)) (err : ε)
    (hs : setupHealthAndMetrics c cfg = none)
    (hp : prepareServices c cfg Services = (Services1, some err)) :
    ConfigServices c cfg heap Services
      = ([Event.setupHealthAndMetrics, Event.prepareServices],
         some (ConfigServicesError.external err)) := by
  unfold ConfigServices
  rw [hs, hp]

theorem ConfigServices_validate_error {ε G H C : Type} (c : Collaborators ε G H C)
    (cfg : Config) (heap : Heap) (Services Services1 : GoMap (ServiceTypes G H C))
    (verr : ValidationError)
    (hs : setupHealthAndMetrics c cfg = none)
    (hp : prepareServices c cfg Services = (Services1, none))
    (hv : validateConfig cfg heap Services1 = some verr) :
    ConfigServices c cfg heap Services
      = ([Event.setupHealthAndMetrics, Event.prepareServices, Event.validateConfig],
         some (ConfigServicesError.validation verr)) := by
  unfold ConfigServices
  rw [hs, hp]
  simp only [hv]

theorem ConfigServices_validated {ε G H C : Type} (c : Collaborators ε G H C)
    (cfg : Config) (heap : Heap) (Services Services1 : GoMap (ServiceTypes G H C))
    (hs : setupHealthAndMetrics c cfg = none)
    (hp : prepareServices c cfg Services = (Services1, none))
    (hv : validateConfig cfg heap Services1 = none) :
    ConfigServices c cfg heap Services
      = ([Event.setupHealthAndMetrics, Event.prepareServices, Event.validateConfig,
          Event.mapToGRPCPorts] ++
          (ConfigServicesGroups c Services1 (mapToGRPCPorts cfg.Services heap).portMap).1,
         (ConfigServicesGroups c Services1
            (mapToGRPCPorts cfg.Services heap).portMap).2.map
              ConfigServicesError.external) := by
  unfold ConfigServices
  rw [hs, hp]
  simp only [hv]

/-- C18, as stated, fails: for the configuration with the one service
"authorizer" on ":8282" and collaborators that all succeed, `validateConfig`
is the third step of `ConfigServices`; `mapToGRPCPorts`, `CreateService` and
`AddGRPCServer` all come after it, and the last step is `AddGRPCServer`. -/
theorem C18_validation_before_composition :
    ConfigServices succeedingCollaborators
        { Services := [("authorizer", 0)], DirectoryResolverAddress := "" }
        (heapOf [mkAPI [] ":8282" 0 0 0 0]) []
      = ([Event.setupHealthAndMetrics, Event.prepareServices, Event.validateConfig,
          Event.mapToGRPCPorts, Event.GetMiddlewaresForService ":8282",
          Event.CreateService ":8282" ["authorizer"], Event.AddGRPCServer ":8282"],
         none) ∧
    (ConfigServices succeedingCollaborators
        { Services := [("authorizer", 0)], DirectoryResolverAddress := "" }
        (heapOf [mkAPI [] ":8282" 0 0 0 0]) []).1.getLast? ≠ some Event.validateConfig ∧
    (ConfigServices succeedingCollaborators
        { Services := [("authorizer", 0)], DirectoryResolverAddress := "" }
        (heapOf [mkAPI [] ":8282" 0 0 0 0]) []).1.indexOf Event.validateConfig
      < (ConfigServices succeedingCollaborators
          { Services := [("authorizer", 0)], DirectoryResolverAddress := "" }
          (heapOf [mkAPI [] ":8282" 0 0 0 0]) []).1.indexOf
            (Event.CreateService ":8282" ["authorizer"]) := by
  decide

theorem ConfigServices_groups_only_after_nil {ε G H C : Type} (c : Collaborators ε G H C)
    (cfg : Config) (heap : Heap) (Services : GoMap (ServiceTypes G H C)) (e : Event)
    (he : e ∈ (ConfigServices c cfg heap Services).1) (hg : e.groupsOrComposes = true) :
    setupHealthAndMetrics c cfg = none ∧
    (prepareServices c cfg Services).2 = none ∧
    validateConfig cfg heap (prepareServices c cfg Services).1 = none := by
  cases hs : setupHealthAndMetrics c cfg with
  | some err =>
    rw [ConfigServices_setup_error c cfg heap Services err hs] at he
    simp only [List.mem_singleton] at he
    subst he
    cases hg
  | none =>
    rcases hp : prepareServices c cfg Services with ⟨Services1, perr⟩
    cases perr with
    | some err =>
      rw [ConfigServices_prepare_error c cfg heap Services Services1 err hs hp] at he
      simp only [List.mem_cons, List.mem_singleton, List.not_mem_nil, or_false] at he
      rcases he with rfl | rfl <;> cases hg
    | none =>
      cases hv : validateConfig cfg heap Services1 with
      | some verr =>
        rw [ConfigServices_validate_error c cfg heap Services Services1 verr hs hp hv] at he
        simp only [List.mem_cons, List.mem_singleton, List.not_mem_nil, or_false] at he
        rcases he with rfl | rfl | rfl <;> cases hg
      | none => exact ⟨rfl, rfl, rfl⟩

/-- C18, amended: in `ConfigServices` the validation runs before grouping and
composition. The steps are `setupHealthAndMetrics`, `prepareServices`,
`validateConfig` in that order, cut short at the first that fails; every step
that groups, composes or registers (`mapToGRPCPorts`, `CreateService`,
`AddGRPCServer`) comes after `validateConfig`, which is not run again, and is
taken only when `validateConfig`, run on the registry that `prepareServices`
left, has returned nil; when `validateConfig` returns an error, whichever it
is, `ConfigServices` returns that error and the steps end with
`validateConfig`: nothing is grouped, composed or registered; and when it
returns nil the steps that follow are `mapToGRPCPorts` and those of the loop
over the groups of the port map. -/
theorem C18_validation_precedes_grouping {ε G H C : Type} (c : Collaborators ε G H C)
    (cfg : Config) (heap : Heap) (Services : GoMap (ServiceTypes G H C)) :
    ((ConfigServices c cfg heap Services).1 = [Event.setupHealthAndMetrics] ∨
      (ConfigServices c cfg heap Services).1
        = [Event.setupHealthAndMetrics, Event.prepareServices] ∨
      ∃ after, (ConfigServices c cfg heap Services).1
          = [Event.setupHealthAndMetrics, Event.prepareServices, Event.validateConfig]
              ++ after ∧
        ∀ e, e ∈ after → e.groupsOrComposes = true) ∧
    (∀ err, (ConfigServices c cfg heap Services).2
        = some (ConfigServicesError.validation err) →
      (ConfigServices c cfg heap Services).1
        = [Event.setupHealthAndMetrics, Event.prepareServices, Event.validateConfig]) ∧
    (∀ e, e ∈ (ConfigServices c cfg heap Services).1 → e.groupsOrComposes = true →
      setupHealthAndMetrics c cfg = none ∧
      (prepareServices c cfg Services).2 = none ∧
      validateConfig cfg heap (prepareServices c cfg Services).1 = none) ∧
    (∀ verr, setupHealthAndMetrics c cfg = none →
      (prepareServices c cfg Services).2 = none →
      validateConfig cfg heap (prepareServices c cfg Services).1 = some verr →
      ConfigServices c cfg heap Services
        = ([Event.setupHealthAndMetrics, Event.prepareServices, Event.validateConfig],
           some (ConfigServicesError.validation verr))) ∧
    (setupHealthAndMetrics c cfg = none →
      (prepareServices c cfg Services).2 = none →
      validateConfig cfg heap (prepareServices c cfg Services).1 = none →
      ConfigServices c cfg heap Services
        = ([Event.setupHealthAndMetrics, Event.prepareServices, Event.validateConfig,
            Event.mapToGRPCPorts] ++
            (ConfigServicesGroups c (prepareServices c cfg Services).1
              (mapToGRPCPorts cfg.Services heap).portMap).1,
           (ConfigServicesGroups c (prepareServices c cfg Services).1
              (mapToGRPCPorts cfg.Services heap).portMap).2.map
                ConfigServicesError.external)) := by
  refine ⟨?_, ?_, ?_, ?_, ?_⟩
  · cases hs : setupHealthAndMetrics c cfg with
    | some err =>
      rw [ConfigServices_setup_error c cfg heap Services err hs]
      exact Or.inl rfl
    | none =>
      rcases hp : prepareServices c cfg Services with ⟨Services1, perr⟩
      cases perr with
      | some err =>
        rw [ConfigServices_prepare_error c cfg heap Services Services1 err hs hp]
        exact Or.inr (Or.inl rfl)
      | none =>
        cases hv : validateConfig cfg heap Services1 with
        | some verr =>
          rw [ConfigServices_validate_error c cfg heap Services Services1 verr hs hp hv]
          exact Or.inr (Or.inr ⟨[], rfl, fun e he => by simp at he⟩)
        | none =>
          rw [ConfigServices_validated c cfg heap Services Services1 hs hp hv]
          refine Or.inr (Or.inr ⟨Event.mapToGRPCPorts ::
            (ConfigServicesGroups c Services1 (mapToGRPCPorts cfg.Services heap).portMap).1,
            rfl, ?_⟩)
          intro e he
          rcases List.mem_cons.1 he with rfl | he
          · rfl
          · exact ConfigServicesGroups_events c Services1 _ e he
  · intro err herr
    cases hs : setupHealthAndMetrics c cfg with
    | some x =>
      rw [ConfigServices_setup_error c cfg heap Services x hs] at herr
      simp at herr
    | none =>
      rcases hp : prepareServices c cfg Services with ⟨Services1, perr⟩
      cases perr with
      | some x =>
        rw [ConfigServices_prepare_error c cfg heap Services Services1 x hs hp] at herr
        simp at herr
      | none =>
        cases hv : validateConfig cfg heap Services1 with
        | some verr =>
          rw [ConfigServices_validate_error c cfg heap Services Services1 verr hs hp hv]
        | none =>
          rw [ConfigServices_validated c cfg heap Services Services1 hs hp hv] at herr
          simp only at herr
          cases hg : (ConfigServicesGroups c Services1
              (mapToGRPCPorts cfg.Services heap).portMap).2 with
          | none => rw [hg] at herr; simp at herr
          | some x => rw [hg] at herr; simp at herr
  · intro e he hg
    exact ConfigServices_groups_only_after_nil c cfg heap Services e he hg
  · intro verr hs hp hv
    exact ConfigServices_validate_error c cfg heap Services
      (prepareServices c cfg Services).1 verr hs (Prod.ext rfl hp) hv
  · intro hs hp hv
    exact ConfigServices_validated c cfg heap Services
      (prepareServices c cfg Services).1 hs (Prod.ext rfl hp) hv

/-- Witness of C18, amended: "reader" on ":9292" with the resolver address
":9393": `validateConfig` fails with the reader error, `ConfigServices`
returns it, and the steps end with `validateConfig`. -/
theorem C18_validation_precedes_grouping_witness :
    (setupHealthAndMetrics succeedingCollaborators
        { Services := [("authorizer", 0), ("reader", 1)],
          DirectoryResolverAddress := ":9393" } = none ∧
      (prepareServices succeedingCollaborators
        { Services := [("authorizer", 0), ("reader", 1)],
          DirectoryResolverAddress := ":9393" } []).2 = none ∧
      validateConfig
        { Services := [("authorizer", 0), ("reader", 1)],
          DirectoryResolverAddress := ":9393" }
        (heapOf [mkAPI [] ":8282" 0 0 0 0, mkAPI [] ":9292" 0 0 0 0])
        (prepareServices succeedingCollaborators
          { Services := [("authorizer", 0), ("reader", 1)],
            DirectoryResolverAddress := ":9393" } []).1
        = some ValidationError.readerAddressMismatch) ∧
    ConfigServices succeedingCollaborators
        { Services := [("authorizer", 0), ("reader", 1)],
          DirectoryResolverAddress := ":9393" }
        (heapOf [mkAPI [] ":8282" 0 0 0 0, mkAPI [] ":9292" 0 0 0 0]) []
      = ([Event.setupHealthAndMetrics, Event.prepareServices, Event.validateConfig],
         some (ConfigServicesError.validation ValidationError.readerAddressMismatch)) :=
  ⟨⟨by decide, by decide, by decide⟩,
   (C18_validation_precedes_grouping succeedingCollaborators
      { Services := [("authorizer", 0), ("reader", 1)],
        DirectoryResolverAddress := ":9393" }
      (heapOf [mkAPI [] ":8282" 0 0 0 0, mkAPI [] ":9292" 0 0 0 0]) []).2.2.2.1
      ValidationError.readerAddressMismatch (by decide) (by decide) (by decide)⟩

end Topaz
